import Mathlib

/-!
Verification development for the keyline-planner engine (contour pipeline).

This file gives a shallow embedding of the deterministic core of the
repository — cache keying and integrity verification (engine/cache.py),
fingerprinting (engine/models.py), AOI normalisation (engine/geometry.py),
contour canonicalisation (engine/contours.py) and the pipeline orchestrator
(engine/pipeline.py) — and proves the specification claims about it.

Modelling conventions:
  - Python floats are modelled as rationals (ℚ); `round(x, n)` is modelled as
    round-half-to-even on rationals (Python's rounding mode).
  - Byte strings are `List Nat` (each entry a byte value).
  - Filesystem paths are lists of path components relative to the cache root.
  - Stateful functions take and return an explicit filesystem value and also
    return a trace of observable events (network transfers, checksum
    verifications, metadata writes).
  - `hashlib.sha256` is embedded as a full executable SHA-256 over byte
    lists (validated below against the standard test vectors).
  - External collaborators (the shapely geometry library, the raster engine,
    the STAC index) are modelled as oracle parameters, so theorems quantify
    over their behaviour.
-/

namespace Sha256

/-- Word arithmetic is carried out on `Nat` reduced modulo `2 ^ 32`. -/
def M32 : Nat := 4294967296

def rotr (n x : Nat) : Nat :=
  ((x >>> n) ||| (x <<< (32 - n))) % M32

def shr (n x : Nat) : Nat := x >>> n

def add32 (a b : Nat) : Nat := (a + b) % M32

def bigSigma0 (x : Nat) : Nat := (rotr 2 x) ^^^ (rotr 13 x) ^^^ (rotr 22 x)

def bigSigma1 (x : Nat) : Nat := (rotr 6 x) ^^^ (rotr 11 x) ^^^ (rotr 25 x)

def smallSigma0 (x : Nat) : Nat := (rotr 7 x) ^^^ (rotr 18 x) ^^^ (shr 3 x)

def smallSigma1 (x : Nat) : Nat := (rotr 17 x) ^^^ (rotr 19 x) ^^^ (shr 10 x)

def ch (x y z : Nat) : Nat := (x &&& y) ^^^ ((x ^^^ (M32 - 1)) &&& z)

def maj (x y z : Nat) : Nat := (x &&& y) ^^^ (x &&& z) ^^^ (y &&& z)

/-- The 64 SHA-256 round constants of FIPS 180-4 (decimal). -/
def K : List Nat :=
  [1116352408, 1899447441, 3049323471, 3921009573, 961987163,
   1508970993, 2453635748, 2870763221, 3624381080, 310598401,
   607225278, 1426881987, 1925078388, 2162078206, 2614888103,
   3248222580, 3835390401, 4022224774, 264347078, 604807628,
   770255983, 1249150122, 1555081692, 1996064986, 2554220882,
   2821834349, 2952996808, 3210313671, 3336571891, 3584528711,
   113926993, 338241895, 666307205, 773529912, 1294757372,
   1396182291, 1695183700, 1986661051, 2177026350, 2456956037,
   2730485921, 2820302411, 3259730800, 3345764771, 3516065817,
   3600352804, 4094571909, 275423344, 430227734, 506948616,
   659060556, 883997877, 958139571, 1322822218, 1537002063,
   1747873779, 1955562222, 2024104815, 2227730452, 2361852424,
   2428436474, 2756734187, 3204031479, 3329325298]

/-- The initial hash state of FIPS 180-4 (decimal). -/
def H0 : List Nat :=
  [1779033703, 3144134277, 1013904242, 2773480762,
   1359893119, 2600822924, 528734635, 1541459225]

/-- Pad a byte message per SHA-256: append 0x80, zeros, then the 8-byte
big-endian bit length. -/
def pad (msg : List Nat) : List Nat :=
  let len := msg.length
  let bitLen := 8 * len
  let zeros := (64 - ((len + 9) % 64)) % 64
  let lenBytes := (List.range 8).map (fun i => (bitLen >>> (8 * (7 - i))) % 256)
  msg ++ [0x80] ++ List.replicate zeros 0 ++ lenBytes

/-- Group bytes into 32-bit big-endian words. -/
def toWords : List Nat → List Nat
  | b0 :: b1 :: b2 :: b3 :: rest =>
      (((b0 % 256) <<< 24) ||| ((b1 % 256) <<< 16) ||| ((b2 % 256) <<< 8) ||| (b3 % 256))
        :: toWords rest
  | _ => []

/-- Split a word list into 16-word blocks (fuel-based structural recursion so
that it reduces inside the kernel). -/
def toBlocksFuel : Nat → List Nat → List (List Nat)
  | 0, _ => []
  | _ + 1, [] => []
  | fuel + 1, w :: ws => (w :: ws).take 16 :: toBlocksFuel fuel (ws.drop 15)

def toBlocks (ws : List Nat) : List (List Nat) := toBlocksFuel ws.length ws

/-- Extend a 16-word block to the 64-word message schedule. -/
def schedule (block : List Nat) : List Nat :=
  let step : List Nat → Nat → List Nat := fun w _ =>
    let g (i : Nat) : Nat := w.getD (w.length - i) 0
    w ++ [add32 (add32 (smallSigma1 (g 2)) (g 7)) (add32 (smallSigma0 (g 15)) (g 16))]
  (List.range 48).foldl step block

/-- One round of the compression function on the 8-word working state. -/
def round (st : List Nat) (kw : Nat × Nat) : List Nat :=
  match st with
  | [a, b, c, d, e, f, g, h] =>
      let t1 := add32 (add32 h (bigSigma1 e)) (add32 (ch e f g) (add32 kw.1 kw.2))
      let t2 := add32 (bigSigma0 a) (maj a b c)
      [add32 t1 t2, a, b, c, add32 d t1, e, f, g]
  | st => st

/-- Compress one block into the running hash state. -/
def compress (h : List Nat) (block : List Nat) : List Nat :=
  let w := schedule block
  let fin := (K.zip w).foldl round h
  (h.zip fin).map (fun p => add32 p.1 p.2)

def digestWords (msg : List Nat) : List Nat :=
  (toBlocks (toWords (pad msg))).foldl compress H0

def hexDigit (n : Nat) : Char :=
  if n < 10 then Char.ofNat (48 + n) else Char.ofNat (87 + n)

def wordToHex (w : Nat) : List Char :=
  (List.range 8).map (fun i => hexDigit ((w >>> (4 * (7 - i))) % 16))

/-- Lowercase hex digest of a byte message, as produced by
`hashlib.sha256(data).hexdigest()`. -/
def hexdigest (msg : List Nat) : String :=
  String.mk ((digestWords msg).flatMap wordToHex)

end Sha256

namespace KeylinePlanner

/-- A JSON value. Numbers are rationals (the idealisation of Python floats
used throughout this development). -/
inductive Json where
  | null : Json
  | bool (b : Bool) : Json
  | num (q : ℚ) : Json
  | str (s : String) : Json
  | arr (elems : List Json) : Json
  | obj (members : List (String × Json)) : Json

/-! String helpers implemented over `List Char` so that everything reduces
inside the kernel (the corresponding `String` library functions are
position-based loops that do not). -/

/-- ASCII lower-casing of a character. The strings the repository
case-folds (hex checksums) are ASCII, so this coincides with Python's
`str.lower()`. -/
def lowerChar (c : Char) : Char :=
  if 65 ≤ c.toNat ∧ c.toNat ≤ 90 then Char.ofNat (c.toNat + 32) else c

/-- Model of `str.lower()`. -/
def strToLower (s : String) : String := String.mk (s.toList.map lowerChar)

def listStartsWith : List Char → List Char → Bool
  | [], _ => true
  | _ :: _, [] => false
  | p :: ps, c :: cs => p == c && listStartsWith ps cs

/-- Model of `s.startswith(pat)`. -/
def strStartsWith (s pat : String) : Bool := listStartsWith pat.toList s.toList

/-- Model of `s[n:]`. -/
def strDrop (s : String) (n : Nat) : String := String.mk (s.toList.drop n)

/-- Model of `s[:n]`. -/
def strTake (s : String) (n : Nat) : String := String.mk (s.toList.take n)

/-- Model of `str.split(sep)` for a one-character separator, Python semantics:
`"/a/".split("/") == ["", "a", ""]`. -/
def splitOnChar (sep : Char) : List Char → List (List Char)
  | [] => [[]]
  | c :: cs =>
      match splitOnChar sep cs with
      | [] => if c == sep then [[], []] else [[c]]
      | r :: rs => if c == sep then [] :: r :: rs else (c :: r) :: rs

/-- UTF-8 encoding of one character. -/
def utf8EncodeChar (c : Char) : List Nat :=
  let n := c.toNat
  if n < 0x80 then [n]
  else if n < 0x800 then
    [0xC0 ||| (n >>> 6), 0x80 ||| (n &&& 0x3F)]
  else if n < 0x10000 then
    [0xE0 ||| (n >>> 12), 0x80 ||| ((n >>> 6) &&& 0x3F), 0x80 ||| (n &&& 0x3F)]
  else
    [0xF0 ||| (n >>> 18), 0x80 ||| ((n >>> 12) &&& 0x3F),
     0x80 ||| ((n >>> 6) &&& 0x3F), 0x80 ||| (n &&& 0x3F)]

/-- UTF-8 bytes of a string, as produced by `str.encode()`. -/
def utf8Bytes (s : String) : List Nat := s.toList.flatMap utf8EncodeChar

/-! Rational arithmetic helpers. Mathlib marks the `Rat` field operations
irreducible, so the operations used on evaluation paths are written
against numerators and denominators (plain `Int`/`Nat` arithmetic and
`Rat.divInt`, all of which reduce inside the kernel); each is proved equal
to the mathematical operation below. -/

/-- Model of `a < b` on ℚ by cross-multiplication. -/
def qlt (a b : ℚ) : Bool := decide (a.num * (b.den : ℤ) < b.num * (a.den : ℤ))

/-- Model of `a ≤ b` on ℚ by cross-multiplication. -/
def qle (a b : ℚ) : Bool := decide (a.num * (b.den : ℤ) ≤ b.num * (a.den : ℤ))

def qneg (q : ℚ) : ℚ := Rat.divInt (-q.num) (q.den : ℤ)

def qsub (a b : ℚ) : ℚ :=
  Rat.divInt (a.num * (b.den : ℤ) - b.num * (a.den : ℤ)) ((a.den : ℤ) * (b.den : ℤ))

def qadd (a b : ℚ) : ℚ :=
  Rat.divInt (a.num * (b.den : ℤ) + b.num * (a.den : ℤ)) ((a.den : ℤ) * (b.den : ℤ))

def qabs (q : ℚ) : ℚ := if qlt q 0 then qneg q else q

def qmin (a b : ℚ) : ℚ := if qle a b then a else b

def qmax (a b : ℚ) : ℚ := if qle a b then b else a

/-- Round `N / d` (with `d > 0`) to the nearest integer, ties to even —
Python's rounding mode. The fraction part is `r / d` with `r = N - f * d`,
compared against `1 / 2` by cross-multiplication. -/
def roundScaled (N d : ℤ) : ℤ :=
  let f := Int.ediv N d
  let r := N - f * d
  if 2 * r < d then f
  else if d < 2 * r then f + 1
  else if f % 2 = 0 then f else f + 1

/-- Python's `round(q, ndigits)` on our rational model of floats:
round-half-even of `q * 10 ^ ndigits`, scaled back down. -/
def pyRound (ndigits : Nat) (q : ℚ) : ℚ :=
  Rat.divInt (roundScaled (((10 : ℤ) ^ ndigits) * q.num) (q.den : ℤ)) ((10 : ℤ) ^ ndigits)

/-- Decimal digits of a natural number (fuel-based; `fuel = n + 1` always
suffices since `n < 10 ^ (n + 1)`). -/
def natDigits : Nat → Nat → List Char
  | 0, _ => []
  | fuel + 1, n =>
      if n < 10 then [Char.ofNat (48 + n)]
      else natDigits fuel (n / 10) ++ [Char.ofNat (48 + n % 10)]

def natRepr (n : Nat) : String := String.mk (natDigits (n + 1) n)

/-- Digits after the decimal point of `r / d` (long division, at most `fuel`
digits; terminates early when the remainder vanishes). -/
def fracDigits : Nat → Nat → Nat → List Char
  | 0, _, _ => []
  | fuel + 1, r, d =>
      if r = 0 then []
      else Char.ofNat (48 + (r * 10) / d) :: fracDigits fuel ((r * 10) % d) d

/-- Serialisation of a number, modelling `repr` of a Python float: an optional
sign, the integer part, a decimal point and at least one fractional digit
(e.g. `2600000.0`). Fractional expansions are cut off after 64 digits; every
number the repository serialises has a short finite expansion. -/
def numRepr (q : ℚ) : String :=
  let sign := if qlt q 0 then "-" else ""
  let n := q.num.natAbs
  let d := q.den
  let frac := if n % d = 0 then "0" else String.mk (fracDigits 64 (n % d) d)
  sign ++ natRepr (n / d) ++ "." ++ frac

/-- JSON escaping of one character (`json.dumps` with its default
`ensure_ascii=True`). -/
def jsonEscapeChar (c : Char) : List Char :=
  if c = '"' then ['\\', '"']
  else if c = '\\' then ['\\', '\\']
  else if c.toNat ≥ 32 ∧ c.toNat < 127 then [c]
  else
    let hex4 (n : Nat) : List Char :=
      (List.range 4).map (fun i => Sha256.hexDigit ((n >>> (4 * (3 - i))) % 16))
    if c.toNat < 0x10000 then '\\' :: 'u' :: hex4 c.toNat
    else
      let n := c.toNat - 0x10000
      ('\\' :: 'u' :: hex4 (0xD800 + (n >>> 10))) ++ ('\\' :: 'u' :: hex4 (0xDC00 + (n &&& 0x3FF)))

/-- A JSON string literal with quotes and escapes. -/
def jsonQuote (s : String) : String :=
  String.mk ('"' :: s.toList.flatMap jsonEscapeChar ++ ['"'])

/-- Sort serialised object members by key. `json.dumps(..., sort_keys=True)`
sorts keys lexicographically by code point, which is exactly `String` order;
serialising each member first and then sorting is equivalent because member
serialisation is independent of member order. -/
def sortPairs (l : List (String × String)) : List (String × String) :=
  l.insertionSort (fun a b => a.1 ≤ b.1)

mutual

/-- Model of `json.dumps(value, sort_keys=True, separators=(",", ":"))` — compact
serialisation with lexicographically sorted keys and no whitespace, as used
by `AOI.canonical_hash` and `_params_hash`. -/
def dumps : Json → String
  | .null => "null"
  | .bool true => "true"
  | .bool false => "false"
  | .num q => numRepr q
  | .str s => jsonQuote s
  | .arr l => "[" ++ String.intercalate "," (dumpsList l) ++ "]"
  | .obj l =>
      "\x7b" ++ String.intercalate ","
        ((sortPairs (dumpsMembers l)).map (fun p => jsonQuote p.1 ++ ":" ++ p.2)) ++ "\x7d"

def dumpsList : List Json → List String
  | [] => []
  | x :: xs => dumps x :: dumpsList xs

def dumpsMembers : List (String × Json) → List (String × String)
  | [] => []
  | (k, v) :: xs => (k, dumps v) :: dumpsMembers xs

end

/-! ## engine/models.py — value objects -/

/-- Model of `CRS` — the closed set of two supported coordinate reference systems. -/
inductive CRS where
  | LV95 : CRS
  | WGS84 : CRS
deriving DecidableEq

def CRS.value : CRS → String
  | .LV95 => "EPSG:2056"
  | .WGS84 => "EPSG:4326"

def CRS.epsg_code : CRS → Int
  | .LV95 => 2056
  | .WGS84 => 4326

/-- Model of `Resolution` — swissALTI3D resolution tiers; `value` is the enum's
numeric value used in `_params_hash`. -/
inductive Resolution where
  | HIGH : Resolution
  | STANDARD : Resolution
deriving DecidableEq

def Resolution.value : Resolution → ℚ
  | .HIGH => 1 / 2
  | .STANDARD => 2

/-- Model of `BBox` — axis-aligned bounding box in a specific CRS. Construction-time
validation (`__post_init__`) is the predicate `BBox.Valid` below; the
raising constructor is `mkBBox` in the geometry section. -/
structure BBox where
  xmin : ℚ
  ymin : ℚ
  xmax : ℚ
  ymax : ℚ
  crs : CRS := .LV95
deriving DecidableEq

/-- The invariant enforced by `BBox.__post_init__`. -/
def BBox.Valid (b : BBox) : Prop := b.xmin < b.xmax ∧ b.ymin < b.ymax

instance (b : BBox) : Decidable b.Valid := by
  unfold BBox.Valid
  infer_instance

def BBox.as_tuple (b : BBox) : ℚ × ℚ × ℚ × ℚ := (b.xmin, b.ymin, b.xmax, b.ymax)

def BBox.area_m2 (b : BBox) : ℚ := (b.xmax - b.xmin) * (b.ymax - b.ymin)

/-- Model of `AOI` — the parcel geometry for processing: a GeoJSON geometry dict
(modelled as a `Json` value), its bounding box, and the CRS of the original
input. -/
structure AOI where
  geometry : Json
  bbox : BBox
  source_crs : CRS := .LV95

/-- Model of `TileInfo` — metadata for a single tile discovered via STAC. -/
structure TileInfo where
  item_id : String
  collection_id : String
  asset_href : String
  checksum : Option String := none
  gsd : ℚ := 2
  epsg : Int := 2056
  bbox : Option (ℚ × ℚ × ℚ × ℚ) := none
  updated : Option String := none
deriving DecidableEq

/-- Model of `ContourParams` — parameters for contour generation. The
`__post_init__` validation is the predicate `ContourParams.Valid`. -/
structure ContourParams where
  interval : ℚ := 1
  attribute_name : String := "elevation"
  simplify_tolerance : ℚ := 0
  resolution : Resolution := .STANDARD
deriving DecidableEq

def ContourParams.Valid (p : ContourParams) : Prop :=
  0 < p.interval ∧ 0 ≤ p.simplify_tolerance

mutual

/-- Model of `_round_coordinates_array` (inner helper of `AOI.canonical_hash`):
recursively round numeric values inside nested arrays; dictionaries and
non-numeric atoms pass through unchanged, exactly as the `isinstance`
dispatch does. -/
def round_coordinates_array (ndigits : Nat) : Json → Json
  | .arr l => .arr (rcaList ndigits l)
  | .num q => .num (pyRound ndigits q)
  | x => x

def rcaList (ndigits : Nat) : List Json → List Json
  | [] => []
  | x :: xs => round_coordinates_array ndigits x :: rcaList ndigits xs

end

mutual

/-- Model of `_round_geometry_coords` (inner helper of `AOI.canonical_hash`): walk the
geometry dict; values under a `"coordinates"` key go through
`_round_coordinates_array`, every other dict value and every list element is
recursed into, and bare atoms (numbers included) are left unchanged. -/
def round_geometry_coords (ndigits : Nat) : Json → Json
  | .obj l => .obj (rgcMembers ndigits l)
  | .arr l => .arr (rgcList ndigits l)
  | x => x

def rgcList (ndigits : Nat) : List Json → List Json
  | [] => []
  | x :: xs => round_geometry_coords ndigits x :: rgcList ndigits xs

def rgcMembers (ndigits : Nat) : List (String × Json) → List (String × Json)
  | [] => []
  | (k, v) :: xs =>
      (k, if k = "coordinates" then round_coordinates_array ndigits v
          else round_geometry_coords ndigits v) :: rgcMembers ndigits xs

end

/-- Model of `AOI.canonical_hash`: round the geometry's coordinates to 2 decimal
places, serialise with sorted keys and no whitespace, SHA-256, and keep the
first 16 hex characters. -/
def AOI.canonical_hash (a : AOI) : String :=
  strTake (Sha256.hexdigest (utf8Bytes (dumps (round_geometry_coords 2 a.geometry)))) 16

/-- Model of `_params_hash` (engine/cache.py): serialise the four output-affecting
parameter fields with sorted keys and no whitespace, SHA-256, and keep the
first 12 hex characters. -/
def params_hash (params : ContourParams) : String :=
  let serialised := dumps (.obj
    [("interval", .num params.interval),
     ("simplify_tolerance", .num params.simplify_tolerance),
     ("resolution", .num params.resolution.value),
     ("attribute_name", .str params.attribute_name)])
  strTake (Sha256.hexdigest (utf8Bytes serialised)) 12

/-! ## engine/cache.py — content-addressed tile cache

The filesystem below the cache root is modelled as an association list from
paths (component lists relative to the cache root) to file contents; the
network is an oracle from URLs to either a transport error or a response
body. Each cache operation returns its result, the new filesystem, and a
trace of observable events. -/

abbrev CachePath := List String

/-- Contents of a cached file: raw tile bytes, or the `metadata.json`
side-car record (held structured; its exact JSON rendering is irrelevant to
every claim). -/
inductive FileData where
  | bytes (b : List Nat)
  | tileMeta (t : TileInfo)
deriving DecidableEq

abbrev FS := List (CachePath × FileData)

def fsLookup (fs : FS) (p : CachePath) : Option FileData :=
  match fs with
  | [] => none
  | (q, d) :: rest => if q = p then some d else fsLookup rest p

def fsSet (fs : FS) (p : CachePath) (d : FileData) : FS := (p, d) :: fs

def fsRemove (fs : FS) (p : CachePath) : FS :=
  match fs with
  | [] => []
  | e :: rest => if e.1 = p then fsRemove rest p else e :: fsRemove rest p

/-- Everything after the first `://` of a URL, when present. -/
def dropThroughScheme : List Char → Option (List Char)
  | ':' :: '/' :: '/' :: rest => some rest
  | [] => none
  | _ :: rest => dropThroughScheme rest

/-- The path component of a URL, as `urllib.parse.urlparse(url).path` gives
it for `scheme://netloc/path` URLs: strip the scheme and network location,
cut at query and fragment. -/
def urlparse_path (url : String) : String :=
  let rest :=
    match dropThroughScheme url.toList with
    | some r => r.dropWhile (fun c => c != '/')
    | none => url.toList
  String.mk (rest.takeWhile (fun c => c != '?' && c != '#'))

/-- Model of `pathlib.Path(p).name`: the last non-empty path component. -/
def path_name (p : String) : String :=
  String.mk (((splitOnChar '/' p.toList).filter (fun s => !s.isEmpty)).getLastD [])

/-- The asset filename parsed out of a descriptor's download URL
(`Path(urlparse(tile.asset_href).path).name`). -/
def url_filename (url : String) : String := path_name (urlparse_path url)

/-- Model of `TileCache.tile_path`: `<root>/raw/<collection_id>/<item_id>/<filename>`. -/
def tile_path (t : TileInfo) : CachePath :=
  ["raw", t.collection_id, t.item_id, url_filename t.asset_href]

/-- Model of `TileCache.has_tile`: existence check at `tile_path`. -/
def has_tile (fs : FS) (t : TileInfo) : Bool := (fsLookup fs (tile_path t)).isSome

/-- Model of `Path.with_suffix(".tmp")` on a filename: replace the extension after the
last dot, or append when there is none. -/
def with_suffix_tmp (name : String) : String :=
  match splitOnChar '.' name.toList with
  | [s] => String.mk (s ++ ".tmp".toList)
  | parts => String.mk (List.intercalate ['.'] parts.dropLast ++ ".tmp".toList)

/-- The temporary download destination `dest.with_suffix(".tmp")`. -/
def tmp_path (p : CachePath) : CachePath := p.dropLast ++ [with_suffix_tmp (p.getLastD "")]

/-- Model of `TileCache.derived_dir_for`: `<root>/derived/<aoi_hash>/<param_hash>`. -/
def derived_dir_for (aoi_hash : String) (params : ContourParams) : CachePath :=
  ["derived", aoi_hash, params_hash params]

/-- Outcome of `_verify_checksum`: return normally (`pass`), raise
`ValueError` (`mismatch`), or log a warning and skip verification
(`skipped`). -/
inductive VerifyResult where
  | pass : VerifyResult
  | mismatch : VerifyResult
  | skipped : VerifyResult
deriving DecidableEq

/-- Model of `_verify_checksum(expected, actual_sha256, tile_id)`: plain hex digests
equal (case-insensitively) pass; a `1220`-prefixed multihash passes or raises
on its suffix; any other format is logged and skipped. -/
def verify_checksum (expected actual_sha256 : String) : VerifyResult :=
  if strToLower expected = strToLower actual_sha256 then .pass
  else if strStartsWith (strToLower expected) "1220" then
    if strToLower (strDrop expected 4) = strToLower actual_sha256 then .pass else .mismatch
  else .skipped

/-- Observable events of a cache operation. -/
inductive CacheEvent where
  | download (url : String)
  | verify (expected actual : String)
  | metadataWrite (dir : CachePath)
deriving DecidableEq

/-- Errors raised by `download_tile`: `requests.HTTPError` (and transport
failures) and the checksum-mismatch `ValueError` (`IntegrityError`). -/
inductive CacheError where
  | http (msg : String)
  | integrity (tile_id expected actual : String)
deriving DecidableEq

/-- The network oracle: a download either fails with a transport error or
yields the full response body. -/
abbrev Network := String → Except String (List Nat)

/-- Promotion of a completed download: atomically rename the temp file onto
the final path, then write the `metadata.json` side-car
(`_save_tile_metadata`) next to it. -/
def promote_tile (fs1 : FS) (t : TileInfo) (dest tmp : CachePath) (body : List Nat) : FS :=
  fsSet (fsSet (fsRemove fs1 tmp) dest (.bytes body))
    (dest.dropLast ++ ["metadata.json"]) (.tileMeta t)

/-- Model of `TileCache.download_tile`: return the cached path on a hit; otherwise
stream the body to a temp file while hashing it, verify the checksum when the
descriptor carries one, atomically promote the temp file, and persist the
side-car metadata. On any failure the temp file is unlinked and the error
propagates. -/
def download_tile (net : Network) (fs : FS) (t : TileInfo) :
    Except CacheError CachePath × FS × List CacheEvent :=
  let dest := tile_path t
  match fsLookup fs dest with
  | some _ => (.ok dest, fs, [])
  | none =>
    match net t.asset_href with
    | .error e => (.error (.http e), fs, [.download t.asset_href])
    | .ok body =>
      let digest := Sha256.hexdigest body
      let tmp := tmp_path dest
      let fs1 := fsSet fs tmp (.bytes body)
      match t.checksum with
      | some c =>
        match verify_checksum c digest with
        | .mismatch =>
            (.error (.integrity t.item_id c digest), fsRemove fs1 tmp,
             [.download t.asset_href, .verify c digest])
        | .pass =>
            (.ok dest, promote_tile fs1 t dest tmp body,
             [.download t.asset_href, .verify c digest, .metadataWrite dest.dropLast])
        | .skipped =>
            (.ok dest, promote_tile fs1 t dest tmp body,
             [.download t.asset_href, .verify c digest, .metadataWrite dest.dropLast])
      | none =>
          (.ok dest, promote_tile fs1 t dest tmp body,
           [.download t.asset_href, .metadataWrite dest.dropLast])

/-- Model of `TileCache.ensure_tiles`: download each descriptor in order, collecting
the local paths; the first failure aborts the batch. -/
def ensure_tiles (net : Network) (fs : FS) :
    List TileInfo → Except CacheError (List CachePath) × FS × List CacheEvent
  | [] => (.ok [], fs, [])
  | t :: ts =>
    match download_tile net fs t with
    | (.error e, fs1, ev) => (.error e, fs1, ev)
    | (.ok p, fs1, ev) =>
      match ensure_tiles net fs1 ts with
      | (.ok ps, fs2, ev2) => (.ok (p :: ps), fs2, ev ++ ev2)
      | (.error e, fs2, ev2) => (.error e, fs2, ev ++ ev2)

/-! ## engine/geometry.py — AOI validation and normalisation

Every error site in the module raises `ValueError`; the constructors below
tag the distinct raise sites, matching the spec's error taxonomy. -/

inductive GeomError where
  | invalidInput : GeomError
  | invalidBBoxBounds : GeomError
  | outOfDomain : GeomError
deriving DecidableEq

/-- Model of `BBox(...)` as a raising constructor (`__post_init__` validation). -/
def mkBBox (xmin ymin xmax ymax : ℚ) (crs : CRS) : Except GeomError BBox :=
  if qle xmax xmin then .error .invalidBBoxBounds
  else if qle ymax ymin then .error .invalidBBoxBounds
  else .ok ⟨xmin, ymin, xmax, ymax, crs⟩

/-- Model of `_LV95_BOUNDS` — Swiss LV95 approximate bounds used for the sanity
check. -/
def LV95_BOUNDS : BBox :=
  { xmin := 2485000, ymin := 1075000, xmax := 2834000, ymax := 1296000, crs := .LV95 }

/-- Model of `_check_within_switzerland` raises exactly when this is `true`. -/
def check_within_switzerland_raises (b : BBox) : Bool :=
  qlt b.xmax LV95_BOUNDS.xmin || qlt LV95_BOUNDS.xmax b.xmin ||
    qlt b.ymax LV95_BOUNDS.ymin || qlt LV95_BOUNDS.ymax b.ymin

/-- Closed-box intersection, following the spec's words: the two rectangles
share at least one point (touching counts). Written from the spec for the
refinement theorem about the domain check. -/
def bboxIntersects (a b : BBox) : Prop :=
  b.xmin ≤ a.xmax ∧ a.xmin ≤ b.xmax ∧ b.ymin ≤ a.ymax ∧ a.ymin ≤ b.ymax

instance (a b : BBox) : Decidable (bboxIntersects a b) := by
  unfold bboxIntersects
  infer_instance

/-- Model of `bbox_to_geometry`: the closed five-corner GeoJSON Polygon of a bbox. -/
def bbox_to_geometry (b : BBox) : Json :=
  .obj [("type", .str "Polygon"),
        ("coordinates", .arr [.arr
          [.arr [.num b.xmin, .num b.ymin],
           .arr [.num b.xmax, .num b.ymin],
           .arr [.num b.xmax, .num b.ymax],
           .arr [.num b.xmin, .num b.ymax],
           .arr [.num b.xmin, .num b.ymin]]])]

mutual

/-- Coordinate pairs of a GeoJSON geometry: an array whose first two entries
are numbers is a point, any other array is recursed into, and object members
(`coordinates`, nested geometries) are recursed into. -/
def collectPoints : Json → List (ℚ × ℚ)
  | .obj l => cpMembers l
  | .arr (.num x :: .num y :: _) => [(x, y)]
  | .arr l => cpList l
  | _ => []

def cpList : List Json → List (ℚ × ℚ)
  | [] => []
  | x :: xs => collectPoints x ++ cpList xs

def cpMembers : List (String × Json) → List (ℚ × ℚ)
  | [] => []
  | (_, v) :: xs => collectPoints v ++ cpMembers xs

end

/-- Model of `geometry_to_bbox`: shapely's `geom.bounds` (min/max over all coordinate
pairs) packed into a validated `BBox`. An empty coordinate set cannot reach
this point in the source (validation rejects empty geometries first). -/
def geometry_to_bbox (g : Json) (crs : CRS) : Except GeomError BBox :=
  match collectPoints g with
  | [] => .error .invalidInput
  | (x, y) :: ps =>
      mkBBox (ps.foldl (fun acc p => qmin acc p.1) x)
        (ps.foldl (fun acc p => qmin acc p.2) y)
        (ps.foldl (fun acc p => qmax acc p.1) x)
        (ps.foldl (fun acc p => qmax acc p.2) y) crs

/-- Model of `normalise_aoi` on a bbox input already in the canonical LV95 system:
the reprojection branch is the identity, and shapely's validity/emptiness
checks always pass on the rectangle `bbox_to_geometry` builds from a
validated bbox, so the remaining steps are the bbox construction, the bounds
computation and the Switzerland containment check. -/
def normalise_aoi_bbox_lv95 (bbox : ℚ × ℚ × ℚ × ℚ) : Except GeomError AOI :=
  match mkBBox bbox.1 bbox.2.1 bbox.2.2.1 bbox.2.2.2 .LV95 with
  | .error e => .error e
  | .ok input_bbox =>
    let geojson := bbox_to_geometry input_bbox
    match geometry_to_bbox geojson .LV95 with
    | .error e => .error e
    | .ok aoi_bbox =>
      if check_within_switzerland_raises aoi_bbox then .error .outOfDomain
      else .ok { geometry := geojson, bbox := aoi_bbox, source_crs := .LV95 }

/-! ## engine/contours.py — contour post-processing and canonicalisation

Features coming back from `gdal_contour` are dicts with a geometry
(`type` + `coordinates`) and numeric properties. The shapely operations
applied to them (`shape(...).is_empty`, `.length`, `.simplify`, `.bounds`)
belong to an external library and are an oracle parameter `Shapely`;
theorems quantify over it, and a concrete instance for plain LineStrings is
given for evaluation. -/

namespace Contours

/-- A GeoJSON feature as handled by `_postprocess_features`: geometry type,
geometry coordinates, and numeric properties. -/
structure Feature where
  gtype : String
  coords : Json
  props : List (String × ℚ)

/-- Model of `dict.get(key, default)` on the numeric properties. -/
def propGet (props : List (String × ℚ)) (k : String) (default : ℚ) : ℚ :=
  match props with
  | [] => default
  | (k', v) :: rest => if k' = k then v else propGet rest k default

/-- The shapely operations used by contours.py, as an oracle over
geometries `(type, coordinates)`. -/
structure Shapely where
  is_empty : String × Json → Bool
  length : String × Json → ℚ
  simplify : ℚ → (String × Json) → String × Json
  bounds : String × Json → ℚ × ℚ × ℚ × ℚ

/-- The `coords and isinstance(coords[0], (int, float))` test of
`_round_coords`: non-empty and first element numeric. -/
def headIsNum : List Json → Bool
  | .num _ :: _ => true
  | _ => false

mutual

/-- Model of `_round_coords` inside `_round_geometry_coords` (contours.py): a
non-empty list headed by a number is a flat coordinate tuple and has every
entry rounded; any other list is recursed into; non-list atoms pass
through. -/
def round_coords (precision : Nat) : Json → Json
  | .arr l =>
      if headIsNum l then .arr (roundFlat precision l) else .arr (roundNest precision l)
  | x => x

def roundFlat (precision : Nat) : List Json → List Json
  | [] => []
  | .num q :: xs => .num (pyRound precision q) :: roundFlat precision xs
  | x :: xs => x :: roundFlat precision xs

def roundNest (precision : Nat) : List Json → List Json
  | [] => []
  | x :: xs => round_coords precision x :: roundNest precision xs

end

/-- Model of `_round_geometry_coords` (contours.py): rebuild the geometry dict with
rounded coordinates. -/
def round_geometry_coords (precision : Nat) (g : String × Json) : String × Json :=
  (g.1, round_coords precision g.2)

/-- The emitted feature for a surviving raw feature: possibly simplified
geometry with cm-rounded coordinates, and the single rounded elevation
property. -/
def emitFeature (params : ContourParams) (g1 : String × Json) (f : Feature) : Feature :=
  { gtype := g1.1,
    coords := round_coords 2 g1.2,
    props := [(params.attribute_name, pyRound 2 (propGet f.props params.attribute_name 0))] }

/-- The geometry a feature carries after the (conditional) simplification
step. -/
def simplifiedGeom (S : Shapely) (params : ContourParams) (f : Feature) : String × Json :=
  if qlt 0 params.simplify_tolerance then
    S.simplify params.simplify_tolerance (f.gtype, f.coords)
  else (f.gtype, f.coords)

/-- Whether `_postprocess_features` keeps a raw feature: its geometry is
non-empty with non-zero length, and when simplification runs the simplified
geometry is non-empty too. -/
def keepsFeature (S : Shapely) (params : ContourParams) (f : Feature) : Bool :=
  !(S.is_empty (f.gtype, f.coords)) && !(decide (S.length (f.gtype, f.coords) = 0)) &&
    !(qlt 0 params.simplify_tolerance && S.is_empty (simplifiedGeom S params f))

/-- Model of `_postprocess_features`: drop degenerate features, simplify when
requested, round coordinates to cm precision and normalise the elevation
property. -/
def postprocess_features (S : Shapely) (params : ContourParams) :
    List Feature → List Feature
  | [] => []
  | f :: fs =>
      if S.is_empty (f.gtype, f.coords) || decide (S.length (f.gtype, f.coords) = 0) then
        postprocess_features S params fs
      else
        let g1 := simplifiedGeom S params f
        if qlt 0 params.simplify_tolerance && S.is_empty g1 then
          postprocess_features S params fs
        else
          emitFeature params g1 f :: postprocess_features S params fs

/-- The sort key of `_build_canonical_geojson`:
`(elevation, bounds minx, bounds miny)`. -/
def sort_key (S : Shapely) (params : ContourParams) (f : Feature) : ℚ × ℚ × ℚ :=
  let b := S.bounds (f.gtype, f.coords)
  (propGet f.props params.attribute_name 0, b.1, b.2.1)

/-- Lexicographic comparison of sort keys, as Python compares the key
tuples. -/
def keyLe (a b : ℚ × ℚ × ℚ) : Bool :=
  decide (a.1 < b.1) ||
    (decide (a.1 = b.1) && (decide (a.2.1 < b.2.1) ||
      (decide (a.2.1 = b.2.1) && decide (a.2.2 ≤ b.2.2))))

/-- Model of `_build_canonical_geojson`: the features of the output
FeatureCollection, stably sorted by `(elevation, minx, miny)` — Python's
`sorted` is a stable sort by key. -/
def build_canonical_geojson (S : Shapely) (params : ContourParams)
    (features : List Feature) : List Feature :=
  features.insertionSort
    (fun a b => keyLe (sort_key S params a) (sort_key S params b) = true)

/-- Taxicab length of a point chain; zero exactly when the Euclidean length
is zero. -/
def taxiLength : List (ℚ × ℚ) → ℚ
  | p :: q :: rest =>
      qadd (qadd (qabs (qsub q.1 p.1)) (qabs (qsub q.2 p.2))) (taxiLength (q :: rest))
  | _ => 0

/-- Modelled from shapely's documented behaviour on LineString geometries
(shapely is an external dependency, not repository code): a LineString is
empty iff it has no coordinates; its length is zero iff all consecutive
points coincide (taxicab length stands in for Euclidean length, which has
the same zero set); `bounds` is the min/max over the coordinates; and
`simplify` is taken as the identity (only used here where the
Douglas-Peucker step is disabled). -/
def lineShapely : Shapely where
  is_empty := fun g => (collectPoints g.2).isEmpty
  length := fun g => taxiLength (collectPoints g.2)
  simplify := fun _ g => g
  bounds := fun g =>
    match collectPoints g.2 with
    | [] => (0, 0, 0, 0)
    | (x, y) :: ps =>
        (ps.foldl (fun acc p => min acc p.1) x,
         ps.foldl (fun acc p => min acc p.2) y,
         ps.foldl (fun acc p => max acc p.1) x,
         ps.foldl (fun acc p => max acc p.2) y)

end Contours

/-! ## engine/pipeline.py — the orchestrator

The orchestrator sequences: normalise → fingerprint → parameter validation →
tile discovery → tile caching → VRT mosaic → DEM clip → statistics → contour
generation → count → optional DEM removal → manifest write. The geometry
normaliser, the STAC index and the raster engine are external collaborators
(oracle fields over an abstract error type ε); the tile cache is the real
`ensure_tiles` model above. Wall-clock elapsed time is not modelled, so the
manifest record carries every other field of `_write_manifest`. -/

/-- Errors surfacing from a pipeline run: a collaborator's error propagated
unchanged, the `ContourParams` validation `ValueError`, or a cache error. -/
inductive PipeError (ε : Type) where
  | step (e : ε)
  | invalidParams : PipeError ε
  | cache (e : CacheError)
deriving DecidableEq

/-- The provenance manifest written by `_write_manifest` (minus the
unmodelled wall-clock `elapsed_seconds`). -/
structure Manifest where
  aoi_hash : String
  parameters : ContourParams
  tiles_used : List String
  dem_stats : List (String × ℚ)
  contour_count : Nat
  attribution : String
deriving DecidableEq

/-- Observable events of one pipeline run. -/
inductive PipeEvent where
  | step (name : String)
  | cache (e : CacheEvent)
  | unlinkDem : PipeEvent
  | writeManifest (dir : CachePath) (m : Manifest)
deriving DecidableEq

/-- Model of `ProcessingResult` of a successful run. -/
structure ProcessingResult where
  contours_path : CachePath
  clipped_dem_path : Option CachePath
  contour_count : Nat
  elevation_range : ℚ × ℚ
  aoi_hash : String
  params : ContourParams
  tile_ids : List String
  attribution : String := "Source: Federal Office of Topography swisstopo"

/-- Model of `ContourParams(...)` as a raising constructor (`__post_init__`). -/
def mkContourParams (interval simplify_tolerance : ℚ) (resolution : Resolution) :
    Except Unit ContourParams :=
  if qle interval 0 then .error ()
  else if qlt simplify_tolerance 0 then .error ()
  else .ok { interval := interval, attribute_name := "elevation",
             simplify_tolerance := simplify_tolerance, resolution := resolution }

/-- The external collaborators of the orchestrator. -/
structure PipelineEnv (ε : Type) where
  normalise : Except ε AOI
  discover : AOI → Except ε (List TileInfo)
  net : Network
  build_vrt : List CachePath → Except ε Unit
  clip_dem : CachePath → Except ε Unit
  get_dem_stats : Except ε (List (String × ℚ))
  generate_contours : ContourParams → Except ε Unit
  count_contours : Except ε Nat

def ATTRIBUTION : String := "Source: Federal Office of Topography swisstopo"

/-- Model of `run_contour_pipeline`: the full pipeline as a single sequential flow;
a failure at any step aborts the run and propagates the originating error;
the manifest write is the final step of a successful run. -/
def run_contour_pipeline {ε : Type} (env : PipelineEnv ε) (interval : ℚ)
    (resolution : Resolution) (simplify_tolerance : ℚ)
    (output_dir? : Option CachePath) (save_clipped_dem : Bool) (fs : FS) :
    Except (PipeError ε) ProcessingResult × FS × List PipeEvent :=
  match env.normalise with
  | .error e => (.error (.step e), fs, [.step "normalise_aoi"])
  | .ok aoi =>
    let aoi_hash := aoi.canonical_hash
    match mkContourParams interval simplify_tolerance resolution with
    | .error _ => (.error .invalidParams, fs, [.step "normalise_aoi"])
    | .ok params =>
      let output_dir := output_dir?.getD (derived_dir_for aoi_hash params)
      match env.discover aoi with
      | .error e =>
          (.error (.step e), fs, [.step "normalise_aoi", .step "discover_tiles"])
      | .ok tiles =>
        let tile_ids := tiles.map (·.item_id)
        let ev1 : List PipeEvent := [.step "normalise_aoi", .step "discover_tiles"]
        match ensure_tiles env.net fs tiles with
        | (.error e, fs1, cev) => (.error (.cache e), fs1, ev1 ++ cev.map .cache)
        | (.ok tile_paths, fs1, cev) =>
          let ev2 := ev1 ++ cev.map PipeEvent.cache
          match env.build_vrt tile_paths with
          | .error e => (.error (.step e), fs1, ev2 ++ [.step "build_vrt"])
          | .ok _ =>
            let ev3 := ev2 ++ [.step "build_vrt"]
            match env.clip_dem output_dir with
            | .error e => (.error (.step e), fs1, ev3 ++ [.step "clip_dem"])
            | .ok _ =>
              let ev4 := ev3 ++ [.step "clip_dem"]
              match env.get_dem_stats with
              | .error e => (.error (.step e), fs1, ev4 ++ [.step "get_dem_stats"])
              | .ok stats =>
                let ev5 := ev4 ++ [.step "get_dem_stats"]
                let elevation_range :=
                  (Contours.propGet stats "min" 0, Contours.propGet stats "max" 0)
                match env.generate_contours params with
                | .error e =>
                    (.error (.step e), fs1, ev5 ++ [.step "generate_contours"])
                | .ok _ =>
                  let ev6 := ev5 ++ [.step "generate_contours"]
                  match env.count_contours with
                  | .error e =>
                      (.error (.step e), fs1, ev6 ++ [.step "count_contours"])
                  | .ok contour_count =>
                    let ev7 := ev6 ++ [.step "count_contours"]
                    let clipped : Option CachePath × List PipeEvent :=
                      if save_clipped_dem then (some (output_dir ++ ["dem_clip.tif"]), ev7)
                      else (none, ev7 ++ [.unlinkDem])
                    let m : Manifest :=
                      { aoi_hash := aoi_hash, parameters := params,
                        tiles_used := tile_ids, dem_stats := stats,
                        contour_count := contour_count, attribution := ATTRIBUTION }
                    (.ok { contours_path := output_dir ++ ["contours.geojson"],
                           clipped_dem_path := clipped.1,
                           contour_count := contour_count,
                           elevation_range := elevation_range,
                           aoi_hash := aoi_hash, params := params,
                           tile_ids := tile_ids, attribution := ATTRIBUTION },
                     fs1, clipped.2 ++ [.writeManifest output_dir m])

/-- Where a pipeline error can originate: the error the caller sees is
exactly an error some step produced, unmasked. -/
def OriginatedBy {ε : Type} (env : PipelineEnv ε) (interval simplify_tolerance : ℚ)
    (resolution : Resolution) : PipeError ε → Prop
  | .invalidParams => mkContourParams interval simplify_tolerance resolution = .error ()
  | .step e0 =>
      env.normalise = .error e0 ∨
      (∃ aoi, env.discover aoi = .error e0) ∨
      (∃ ps, env.build_vrt ps = .error e0) ∨
      (∃ d, env.clip_dem d = .error e0) ∨
      env.get_dem_stats = .error e0 ∨
      (∃ p, env.generate_contours p = .error e0) ∨
      env.count_contours = .error e0
  | .cache ce => ∃ fsx ts, (ensure_tiles env.net fsx ts).1 = .error ce

/-! ## Auxiliary predicates used by the formal statements -/

/-- Network-transfer events. -/
def isDownloadEv : CacheEvent → Bool
  | .download _ => true
  | _ => false

/-- Manifest-write events. -/
def isManifestEv : PipeEvent → Bool
  | .writeManifest _ _ => true
  | _ => false

/-- The collaborator name of a step event. -/
def stepNameOf : PipeEvent → Option String
  | .step n => some n
  | _ => none

mutual

/-- All numeric leaves of a JSON value. -/
def numLeaves : Json → List ℚ
  | .num q => [q]
  | .arr l => numLeavesList l
  | .obj l => numLeavesMembers l
  | _ => []

def numLeavesList : List Json → List ℚ
  | [] => []
  | x :: xs => numLeaves x ++ numLeavesList xs

def numLeavesMembers : List (String × Json) → List ℚ
  | [] => []
  | (_, v) :: xs => numLeaves v ++ numLeavesMembers xs

end

/-- Well-formed GeoJSON coordinate structures as produced by shapely's
`mapping`: a node is either a non-empty flat point (a list of numbers) or a
list of well-formed nodes. Exactly the shapes on which `_round_coords`
reaches — and rounds — every numeric leaf. -/
inductive WFCoords : Json → Prop where
  | point (l : List ℚ) (hne : l ≠ []) : WFCoords (.arr (l.map Json.num))
  | nest (l : List Json) (h : ∀ x ∈ l, WFCoords x) : WFCoords (.arr l)

/-! ## Concrete fixtures used by witnesses -/

/-- A plain descriptor without checksum. -/
def tileFix : TileInfo :=
  { item_id := "tile_a", collection_id := "coll",
    asset_href := "https://example.com/d/tile_a.tif" }

/-- A descriptor carrying a `1220`-prefixed multihash checksum that matches
nothing. -/
def tileFixBadMulti : TileInfo :=
  { item_id := "tile_b", collection_id := "coll",
    asset_href := "https://example.com/d/tile_b.tif", checksum := some "1220aaaa" }

/-- A descriptor carrying a mismatched checksum in an unrecognised format. -/
def tileFixBadPlain : TileInfo :=
  { item_id := "tile_c", collection_id := "coll",
    asset_href := "https://example.com/d/tile_c.tif", checksum := some "deadbeef" }

/-- A network oracle that always serves the single byte `65`. -/
def netFix : Network := fun _ => .ok [65]

/-- A network oracle that always serves an empty body. -/
def netFixEmpty : Network := fun _ => .ok []

/-- A network oracle whose every transfer fails. -/
def netFail : Network := fun _ => .error "connection refused"

/-- A pipeline environment whose every collaborator succeeds. -/
def envFixOk : PipelineEnv String :=
  { normalise := .ok ⟨.null, ⟨2600000, 1200000, 2601000, 1201000, .LV95⟩, .LV95⟩,
    discover := fun _ => .ok [tileFix],
    net := netFix,
    build_vrt := fun _ => .ok (),
    clip_dem := fun _ => .ok (),
    get_dem_stats := .ok [("min", 400), ("max", 500)],
    generate_contours := fun _ => .ok (),
    count_contours := .ok 3 }

/-- A pipeline environment whose normalisation step fails. -/
def envFixBad : PipelineEnv String :=
  { envFixOk with normalise := .error "invalid geometry" }

/-! ## Bridge lemmas: the kernel-friendly rational helpers agree with the
mathematical operations. -/

theorem qlt_iff (a b : ℚ) : qlt a b = true ↔ a < b := by
  rw [qlt, decide_eq_true_iff, Rat.lt_def]

theorem qle_iff (a b : ℚ) : qle a b = true ↔ a ≤ b := by
  rw [qle, decide_eq_true_iff, Rat.le_def]

theorem qle_eq_false_iff (a b : ℚ) : qle a b = false ↔ b < a := by
  rw [← Bool.not_eq_true, qle_iff, not_le]

theorem qlt_eq_false_iff (a b : ℚ) : qlt a b = false ↔ b ≤ a := by
  rw [← Bool.not_eq_true, qlt_iff, not_lt]

theorem qmin_eq (a b : ℚ) : qmin a b = min a b := by
  rw [qmin]
  cases h : qle a b with
  | false => rw [if_neg Bool.false_ne_true, min_eq_right (le_of_lt ((qle_eq_false_iff a b).mp h))]
  | true => rw [if_pos rfl, min_eq_left ((qle_iff a b).mp h)]

theorem qmax_eq (a b : ℚ) : qmax a b = max a b := by
  rw [qmax]
  cases h : qle a b with
  | false => rw [if_neg Bool.false_ne_true, max_eq_left (le_of_lt ((qle_eq_false_iff a b).mp h))]
  | true => rw [if_pos rfl, max_eq_right ((qle_iff a b).mp h)]

theorem qneg_eq (q : ℚ) : qneg q = -q := by
  rw [qneg, Rat.divInt_eq_div]
  push_cast
  rw [neg_div, Rat.num_div_den]

theorem qsub_eq (a b : ℚ) : qsub a b = a - b := by
  rw [qsub, Rat.divInt_eq_div]
  conv_rhs => rw [← Rat.num_div_den a, ← Rat.num_div_den b]
  rw [div_sub_div _ _ (by positivity : (a.den : ℚ) ≠ 0) (by positivity : (b.den : ℚ) ≠ 0)]
  push_cast
  ring_nf

theorem qadd_eq (a b : ℚ) : qadd a b = a + b := by
  rw [qadd, Rat.divInt_eq_div]
  conv_rhs => rw [← Rat.num_div_den a, ← Rat.num_div_den b]
  rw [div_add_div _ _ (by positivity : (a.den : ℚ) ≠ 0) (by positivity : (b.den : ℚ) ≠ 0)]
  push_cast
  ring_nf

theorem qabs_eq (q : ℚ) : qabs q = |q| := by
  rw [qabs]
  cases h : qlt q 0 with
  | false => rw [if_neg Bool.false_ne_true, abs_of_nonneg ((qlt_eq_false_iff q 0).mp h)]
  | true => rw [if_pos rfl, qneg_eq, abs_of_neg ((qlt_iff q 0).mp h)]

/-- Rounding to two decimals produces an integer number of hundredths. -/
theorem pyRound_mul_hundred_den (q : ℚ) : (pyRound 2 q * 100).den = 1 := by
  rw [pyRound, Rat.divInt_eq_div]
  push_cast
  rw [div_mul_cancel₀ _ (by norm_num : (100 : ℚ) ≠ 0)]
  exact Rat.den_intCast _

/-! ## Association-list filesystem lemmas -/

theorem fsLookup_fsSet_self (fs : FS) (p : CachePath) (d : FileData) :
    fsLookup (fsSet fs p d) p = some d := by
  simp [fsLookup, fsSet]

theorem fsLookup_fsSet_ne (fs : FS) (p q : CachePath) (d : FileData) (h : q ≠ p) :
    fsLookup (fsSet fs p d) q = fsLookup fs q := by
  simp only [fsSet, fsLookup]
  rw [if_neg (fun hh => h hh.symm)]

theorem fsLookup_fsRemove_self (fs : FS) (p : CachePath) :
    fsLookup (fsRemove fs p) p = none := by
  induction fs with
  | nil => rfl
  | cons e rest ih =>
      rw [fsRemove]
      by_cases h : e.1 = p
      · rw [if_pos h]
        exact ih
      · rw [if_neg h, fsLookup, if_neg h]
        exact ih

theorem fsLookup_fsRemove_ne (fs : FS) (p q : CachePath) (h : q ≠ p) :
    fsLookup (fsRemove fs p) q = fsLookup fs q := by
  induction fs with
  | nil => rfl
  | cons e rest ih =>
      rw [fsRemove]
      by_cases h1 : e.1 = p
      · rw [if_pos h1]
        have h2 : e.1 ≠ q := by rw [h1]; exact fun hh => h hh.symm
        conv_rhs => rw [fsLookup]
        rw [if_neg h2]
        exact ih
      · rw [if_neg h1]
        simp only [fsLookup]
        by_cases h2 : e.1 = q
        · rw [if_pos h2, if_pos h2]
        · rw [if_neg h2, if_neg h2]
          exact ih

/-! ## SHA-256 validation against the standard test vectors -/

theorem sha256_empty_vector :
    Sha256.hexdigest [] =
      "e3b0c44298fc1c149afbf4c8996fb92427ae41e4649b934ca495991b7852b855" := by
  decide

theorem sha256_abc_vector :
    Sha256.hexdigest (utf8Bytes "abc") =
      "ba7816bf8f01cfea414140de5dae2223b00361a396177a9cb410ff61f20015ad" := by
  decide

theorem sha256_two_block_vector :
    Sha256.hexdigest (utf8Bytes "abcdbcdecdefdefgefghfghighijhijkijkljklmklmnlmnomnopnopq") =
      "248d6a61d20638b8e5c026930c3e6039a33ce45964ff2167f6ecedd419db06c1" := by
  decide

/-! ## C4 — cache path determinism and collision-freedom -/

/-- C4: `tile_path` is a pure function of the descriptor's collection id,
item id and the filename parsed from the download URL — descriptors agreeing
on that triple share a path regardless of any other metadata — and distinct
triples always yield distinct paths. -/
theorem claim_C4_tile_path_triple (t1 t2 : TileInfo) :
    (t1.collection_id = t2.collection_id → t1.item_id = t2.item_id →
      url_filename t1.asset_href = url_filename t2.asset_href →
      tile_path t1 = tile_path t2) ∧
    (tile_path t1 = tile_path t2 →
      t1.collection_id = t2.collection_id ∧ t1.item_id = t2.item_id ∧
        url_filename t1.asset_href = url_filename t2.asset_href) := by
  constructor
  · intro h1 h2 h3
    rw [tile_path, tile_path, h1, h2, h3]
  · intro h
    rw [tile_path, tile_path] at h
    simpa using h

/-- Witness for C4: two descriptors with the same
(collection, item, filename) triple but different URLs, checksums and
resolutions map to the same path; changing the item id changes the path. -/
theorem claim_C4_witness :
    tile_path { item_id := "tile_001", collection_id := "ch.swisstopo.swissalti3d",
                asset_href := "https://example.com/data/tile_001_2m.tif" } =
      tile_path { item_id := "tile_001", collection_id := "ch.swisstopo.swissalti3d",
                  asset_href := "https://mirror.example.org/other/tile_001_2m.tif?sig=abc",
                  checksum := some "1220ff", gsd := 1/2 } ∧
    tile_path { item_id := "tile_001", collection_id := "c",
                asset_href := "https://example.com/a.tif" } ≠
      tile_path { item_id := "tile_002", collection_id := "c",
                  asset_href := "https://example.com/a.tif" } := by
  constructor
  · exact (claim_C4_tile_path_triple _ _).1 rfl rfl (by decide)
  · intro h
    have h2 := ((claim_C4_tile_path_triple _ _).2 h).2.1
    exact absurd h2 (by decide)

/-! ## C6 — the Switzerland domain check -/

/-- The raise condition of `_check_within_switzerland` holds exactly when the
bbox misses the LV95 reference region entirely (touching counts as
intersecting). -/
theorem check_raises_iff (b : BBox) :
    check_within_switzerland_raises b = true ↔ ¬ bboxIntersects b LV95_BOUNDS := by
  rw [check_within_switzerland_raises, bboxIntersects]
  rw [Bool.or_eq_true, Bool.or_eq_true, Bool.or_eq_true, qlt_iff, qlt_iff, qlt_iff, qlt_iff]
  constructor
  · rintro (((h | h) | h) | h) ⟨h1, h2, h3, h4⟩ <;> linarith
  · intro h
    rcases lt_or_le b.xmax LV95_BOUNDS.xmin with h1 | h1
    · exact Or.inl (Or.inl (Or.inl h1))
    rcases lt_or_le LV95_BOUNDS.xmax b.xmin with h2 | h2
    · exact Or.inl (Or.inl (Or.inr h2))
    rcases lt_or_le b.ymax LV95_BOUNDS.ymin with h3 | h3
    · exact Or.inl (Or.inr h3)
    rcases lt_or_le LV95_BOUNDS.ymax b.ymin with h4 | h4
    · exact Or.inr h4
    exact absurd ⟨h1, h2, h3, h4⟩ h

/-- Model of `geometry_to_bbox` recovers the bbox from the rectangle polygon
`bbox_to_geometry` builds, for a valid bbox. -/
theorem geometry_to_bbox_rect (b : BBox) (hx : b.xmin < b.xmax) (hy : b.ymin < b.ymax) :
    geometry_to_bbox (bbox_to_geometry b) .LV95 =
      .ok ⟨b.xmin, b.ymin, b.xmax, b.ymax, .LV95⟩ := by
  rw [bbox_to_geometry, geometry_to_bbox]
  simp only [collectPoints, cpMembers, cpList, List.append_nil, List.nil_append,
    List.cons_append, List.foldl, qmin_eq, qmax_eq]
  simp only [min_eq_left hx.le, min_eq_left hy.le, max_eq_right hx.le, max_eq_right hy.le,
    min_self, max_self, max_eq_left hx.le, max_eq_left hy.le, min_eq_right hx.le,
    min_eq_right hy.le]
  rw [mkBBox, if_neg (fun hh => absurd ((qle_iff _ _).mp hh) (not_le.mpr hx)),
    if_neg (fun hh => absurd ((qle_iff _ _).mp hh) (not_le.mpr hy))]

/-- C6: for a valid bbox input already in the canonical system,
normalisation fails with `OutOfDomain` exactly when the bbox does not
intersect the fixed LV95 reference region at all; in particular the bbox
`(0, 0, 1, 1)` fails, while any bbox touching or overlapping the region
passes the check. -/
theorem claim_C6_out_of_domain (xmin ymin xmax ymax : ℚ)
    (hx : qlt xmin xmax = true) (hy : qlt ymin ymax = true) :
    (normalise_aoi_bbox_lv95 (xmin, ymin, xmax, ymax) = .error .outOfDomain ↔
      ¬ bboxIntersects ⟨xmin, ymin, xmax, ymax, .LV95⟩ LV95_BOUNDS) ∧
    normalise_aoi_bbox_lv95 (0, 0, 1, 1) = .error .outOfDomain := by
  have hx' := (qlt_iff _ _).mp hx
  have hy' := (qlt_iff _ _).mp hy
  constructor
  · have hmk : mkBBox xmin ymin xmax ymax .LV95 = .ok ⟨xmin, ymin, xmax, ymax, .LV95⟩ := by
      rw [mkBBox, if_neg (fun hh => absurd ((qle_iff _ _).mp hh) (not_le.mpr hx')),
        if_neg (fun hh => absurd ((qle_iff _ _).mp hh) (not_le.mpr hy'))]
    have hgb := geometry_to_bbox_rect ⟨xmin, ymin, xmax, ymax, .LV95⟩ hx' hy'
    simp only [normalise_aoi_bbox_lv95, hmk, hgb]
    by_cases hc : check_within_switzerland_raises ⟨xmin, ymin, xmax, ymax, .LV95⟩ = true
    · rw [if_pos hc]
      simp only [true_iff]
      exact (check_raises_iff _).mp hc
    · rw [if_neg hc]
      constructor
      · intro hcontra
        exact absurd hcontra (by simp)
      · intro hni
        exact absurd ((check_raises_iff _).mpr hni) hc
  · rfl

/-- Witness for C6: the all-Swiss bbox `(2600000, 1200000, 2601000, 1201000)`
does not fail with `OutOfDomain`, while `(0, 0, 1, 1)` does. -/
theorem claim_C6_witness :
    normalise_aoi_bbox_lv95 (2600000, 1200000, 2601000, 1201000) ≠ .error .outOfDomain ∧
    normalise_aoi_bbox_lv95 (0, 0, 1, 1) = .error .outOfDomain := by
  constructor
  · intro hc
    have h := (claim_C6_out_of_domain 2600000 1200000 2601000 1201000
      (by decide) (by decide)).1.mp hc
    exact h ⟨by norm_num [LV95_BOUNDS], by norm_num [LV95_BOUNDS],
      by norm_num [LV95_BOUNDS], by norm_num [LV95_BOUNDS]⟩
  · exact (claim_C6_out_of_domain 0 0 1 1 (by decide) (by decide)).2

/-! ## Structure of `download_tile` runs -/

/-- A cache hit returns the cached path immediately: no network access, no
verification, no metadata write, no state change. -/
theorem download_tile_hit (net : Network) (fs : FS) (t : TileInfo) (d : FileData)
    (h : fsLookup fs (tile_path t) = some d) :
    download_tile net fs t = (.ok (tile_path t), fs, []) := by
  simp only [download_tile, h]

/-- Writing and then unlinking a temp file leaves every path that was empty
empty. -/
theorem fsLookup_remove_set_tmp (fs : FS) (tp q : CachePath) (d : FileData)
    (h : fsLookup fs q = none) :
    fsLookup (fsRemove (fsSet fs tp d) tp) q = none := by
  by_cases hq : q = tp
  · subst hq
    exact fsLookup_fsRemove_self _ _
  · rw [fsLookup_fsRemove_ne _ _ _ hq, fsLookup_fsSet_ne _ _ _ _ hq]
    exact h

/-- After promotion, the final path holds a file. -/
theorem fsLookup_promote_isSome (fs1 : FS) (t : TileInfo) (dest tmp : CachePath)
    (body : List Nat) :
    (fsLookup (promote_tile fs1 t dest tmp body) dest).isSome = true := by
  rw [promote_tile]
  by_cases hmeta : dest.dropLast ++ ["metadata.json"] = dest
  · rw [hmeta, fsLookup_fsSet_self]
    rfl
  · rw [fsLookup_fsSet_ne _ _ _ _ (fun hh => hmeta hh.symm), fsLookup_fsSet_self]
    rfl

/-- Every successful `download_tile` call returns the computed tile path,
leaves a file there, and performs at most one network transfer. -/
theorem download_tile_ok (net : Network) (fs : FS) (t : TileInfo) (p : CachePath)
    (fs1 : FS) (ev : List CacheEvent)
    (h : download_tile net fs t = (.ok p, fs1, ev)) :
    p = tile_path t ∧ (fsLookup fs1 (tile_path t)).isSome = true ∧
      ev.countP isDownloadEv ≤ 1 := by
  cases hl : fsLookup fs (tile_path t) with
  | some d =>
      rw [download_tile_hit net fs t d hl] at h
      simp only [Prod.mk.injEq, Except.ok.injEq] at h
      obtain ⟨h1, h2, h3⟩ := h
      subst h1; subst h2; subst h3
      refine ⟨rfl, by rw [hl]; rfl, by simp⟩
  | none =>
      simp only [download_tile, hl] at h
      cases hn : net t.asset_href with
      | error e => simp only [hn] at h; simp at h
      | ok body =>
          simp only [hn] at h
          cases hc : t.checksum with
          | none =>
              simp only [hc] at h
              simp only [Prod.mk.injEq, Except.ok.injEq] at h
              obtain ⟨h1, h2, h3⟩ := h
              subst h1; subst h2; subst h3
              refine ⟨rfl, fsLookup_promote_isSome _ _ _ _ _, ?_⟩
              simp [List.countP_cons, isDownloadEv]
          | some c =>
              simp only [hc] at h
              cases hv : verify_checksum c (Sha256.hexdigest body) with
              | mismatch => simp only [hv] at h; simp at h
              | pass =>
                  simp only [hv] at h
                  simp only [Prod.mk.injEq, Except.ok.injEq] at h
                  obtain ⟨h1, h2, h3⟩ := h
                  subst h1; subst h2; subst h3
                  refine ⟨rfl, fsLookup_promote_isSome _ _ _ _ _, ?_⟩
                  simp [List.countP_cons, isDownloadEv]
              | skipped =>
                  simp only [hv] at h
                  simp only [Prod.mk.injEq, Except.ok.injEq] at h
                  obtain ⟨h1, h2, h3⟩ := h
                  subst h1; subst h2; subst h3
                  refine ⟨rfl, fsLookup_promote_isSome _ _ _ _ _, ?_⟩
                  simp [List.countP_cons, isDownloadEv]

/-- The event trace of any `download_tile` call is either empty (cache hit)
or starts with the network transfer. -/
theorem download_tile_events (net : Network) (fs : FS) (t : TileInfo) :
    (download_tile net fs t).2.2 = [] ∨
    ∃ rest, (download_tile net fs t).2.2 = .download t.asset_href :: rest := by
  cases hl : fsLookup fs (tile_path t) with
  | some d => rw [download_tile_hit net fs t d hl]; exact Or.inl rfl
  | none =>
      simp only [download_tile, hl]
      cases hn : net t.asset_href with
      | error e =>
          simp only [hn]
          exact Or.inr ⟨_, rfl⟩
      | ok body =>
          simp only [hn]
          cases hc : t.checksum with
          | none =>
              simp only [hc]
              exact Or.inr ⟨_, rfl⟩
          | some c =>
              simp only [hc]
              cases hv : verify_checksum c (Sha256.hexdigest body) with
              | mismatch =>
                  simp only [hv]
                  exact Or.inr ⟨_, rfl⟩
              | pass =>
                  simp only [hv]
                  exact Or.inr ⟨_, rfl⟩
              | skipped =>
                  simp only [hv]
                  exact Or.inr ⟨_, rfl⟩

/-! ## C3 — fetch is idempotent -/

/-- C3: when the first call succeeds, a second call on the resulting state is
a pure cache hit — same path, unchanged state, no events — so two calls
perform at most one network transfer in total; and whenever the file is
already present, the call returns its path with no network access. -/
theorem claim_C3_fetch_idempotent (net : Network) (fs : FS) (t : TileInfo) :
    (∀ p fs1 ev1, download_tile net fs t = (.ok p, fs1, ev1) →
      download_tile net fs1 t = (.ok p, fs1, []) ∧ p = tile_path t ∧
        ev1.countP isDownloadEv ≤ 1) ∧
    (∀ d, fsLookup fs (tile_path t) = some d →
      download_tile net fs t = (.ok (tile_path t), fs, [])) := by
  constructor
  · intro p fs1 ev1 h
    obtain ⟨hp, hsome, hcount⟩ := download_tile_ok net fs t p fs1 ev1 h
    obtain ⟨d, hd⟩ := Option.isSome_iff_exists.mp hsome
    subst hp
    exact ⟨download_tile_hit net fs1 t d hd, rfl, hcount⟩
  · intro d hd
    exact download_tile_hit net fs t d hd

/-- Witness for C3: a concrete miss-then-hit sequence. The first call on the
empty cache downloads and populates the state; the theorem then shows the
second call is a hit returning the same path with no events. -/
theorem claim_C3_witness :
    download_tile netFix
      [(["raw", "coll", "tile_a", "metadata.json"], .tileMeta tileFix),
       (["raw", "coll", "tile_a", "tile_a.tif"], .bytes [65])] tileFix =
      (.ok (tile_path tileFix),
       [(["raw", "coll", "tile_a", "metadata.json"], .tileMeta tileFix),
        (["raw", "coll", "tile_a", "tile_a.tif"], .bytes [65])], []) :=
  ((claim_C3_fetch_idempotent netFix [] tileFix).1 _ _ _ rfl).1

/-! ## C9 — cache hits skip verification and metadata refresh -/

/-- C9: on a cache hit `download_tile` returns the path immediately with no
events at all — in particular no checksum verification and no
`metadata.json` write, even when the descriptor carries a checksum — and any
verification or metadata-write event can only occur in a trace that starts
with a network transfer (the download path). -/
theorem claim_C9_cache_hit_bypass (net : Network) (fs : FS) (t : TileInfo) (d : FileData)
    (h : fsLookup fs (tile_path t) = some d) :
    download_tile net fs t = (.ok (tile_path t), fs, []) ∧
    (∀ fs2 c a, CacheEvent.verify c a ∈ (download_tile net fs2 t).2.2 →
        CacheEvent.download t.asset_href ∈ (download_tile net fs2 t).2.2) ∧
    (∀ fs2 dir, CacheEvent.metadataWrite dir ∈ (download_tile net fs2 t).2.2 →
        CacheEvent.download t.asset_href ∈ (download_tile net fs2 t).2.2) := by
  refine ⟨download_tile_hit net fs t d h, ?_, ?_⟩
  · intro fs2 c a hmem
    rcases download_tile_events net fs2 t with hev | ⟨rest, hev⟩
    · rw [hev] at hmem
      exact absurd hmem (List.not_mem_nil _)
    · rw [hev]
      exact List.mem_cons_self _ _
  · intro fs2 dir hmem
    rcases download_tile_events net fs2 t with hev | ⟨rest, hev⟩
    · rw [hev] at hmem
      exact absurd hmem (List.not_mem_nil _)
    · rw [hev]
      exact List.mem_cons_self _ _

/-- Witness for C9: a concrete hit — with a checksum-carrying descriptor and
a file already at its path — returns immediately with an empty trace. -/
theorem claim_C9_witness :
    download_tile netFix [(tile_path tileFixBadMulti, .bytes [65])] tileFixBadMulti =
      (.ok (tile_path tileFixBadMulti), [(tile_path tileFixBadMulti, .bytes [65])], []) :=
  (claim_C9_cache_hit_bypass netFix _ tileFixBadMulti (.bytes [65]) (by decide)).1

/-! ## C1 — checksum verification on the download path -/

/-- Counterexample to C1 as stated: `tileFixBadPlain` carries the checksum
`"deadbeef"`, the downloaded body hashes to a different digest, and yet
`download_tile` raises nothing — the mismatched checksum is in an
unrecognised format, verification is skipped, and the tile IS promoted to
its final path. -/
theorem claim_C1_counterexample :
    Sha256.hexdigest [] ≠ "deadbeef" ∧
    verify_checksum "deadbeef" (Sha256.hexdigest []) = .skipped ∧
    (download_tile netFixEmpty [] tileFixBadPlain).1 = .ok (tile_path tileFixBadPlain) ∧
    fsLookup (download_tile netFixEmpty [] tileFixBadPlain).2.1 (tile_path tileFixBadPlain) =
      some (.bytes []) := by
  refine ⟨by decide, by decide, by rfl, by decide⟩

/-- C1 (amended): when the descriptor's checksum is recognised as a
`1220`-prefixed multihash whose digest does not match, `download_tile` fails
with `IntegrityError`, the temp file is discarded and no file is left at the
final path; a mismatched checksum in an unrecognised format is instead
logged, skipped and the tile promoted. The last conjunct characterises
exactly when a mismatch is raised. -/
theorem claim_C1_amended (net : Network) (fs : FS) (t : TileInfo) (c : String)
    (body : List Nat)
    (hmiss : fsLookup fs (tile_path t) = none)
    (hnet : net t.asset_href = .ok body)
    (hc : t.checksum = some c) :
    (verify_checksum c (Sha256.hexdigest body) = .mismatch →
      download_tile net fs t =
        (.error (.integrity t.item_id c (Sha256.hexdigest body)),
         fsRemove (fsSet fs (tmp_path (tile_path t)) (.bytes body)) (tmp_path (tile_path t)),
         [.download t.asset_href, .verify c (Sha256.hexdigest body)]) ∧
      fsLookup (download_tile net fs t).2.1 (tile_path t) = none ∧
      fsLookup (download_tile net fs t).2.1 (tmp_path (tile_path t)) = none) ∧
    (verify_checksum c (Sha256.hexdigest body) = .skipped →
      (download_tile net fs t).1 = .ok (tile_path t)) ∧
    (verify_checksum c (Sha256.hexdigest body) = .mismatch ↔
      strToLower c ≠ strToLower (Sha256.hexdigest body) ∧
      strStartsWith (strToLower c) "1220" = true ∧
      strToLower (strDrop c 4) ≠ strToLower (Sha256.hexdigest body)) := by
  refine ⟨?_, ?_, ?_⟩
  · intro hv
    have hrun : download_tile net fs t =
        (.error (.integrity t.item_id c (Sha256.hexdigest body)),
         fsRemove (fsSet fs (tmp_path (tile_path t)) (.bytes body)) (tmp_path (tile_path t)),
         [.download t.asset_href, .verify c (Sha256.hexdigest body)]) := by
      simp only [download_tile, hmiss, hnet, hc, hv]
    refine ⟨hrun, ?_, ?_⟩
    · rw [hrun]
      exact fsLookup_remove_set_tmp fs _ _ _ hmiss
    · rw [hrun]
      exact fsLookup_fsRemove_self _ _
  · intro hv
    simp only [download_tile, hmiss, hnet, hc, hv]
  · rw [verify_checksum]
    by_cases h1 : strToLower c = strToLower (Sha256.hexdigest body)
    · rw [if_pos h1]
      simp [h1]
    · rw [if_neg h1]
      by_cases h2 : strStartsWith (strToLower c) "1220" = true
      · rw [if_pos h2]
        by_cases h3 : strToLower (strDrop c 4) = strToLower (Sha256.hexdigest body)
        · rw [if_pos h3]
          simp [h1, h2, h3]
        · rw [if_neg h3]
          simp [h1, h2, h3]
      · rw [if_neg h2]
        simp [h1, h2]

set_option maxRecDepth 10000 in
/-- Witness for C1 (amended): `tileFixBadMulti` carries the multihash
checksum `"1220aaaa"`; on an empty body the digest differs, the call fails
with `IntegrityError` and both the final path and the temp path are empty. -/
theorem claim_C1_witness :
    download_tile netFixEmpty [] tileFixBadMulti =
      (.error (.integrity "tile_b" "1220aaaa" (Sha256.hexdigest [])),
       fsRemove (fsSet [] (tmp_path (tile_path tileFixBadMulti)) (.bytes []))
         (tmp_path (tile_path tileFixBadMulti)),
       [.download "https://example.com/d/tile_b.tif",
        .verify "1220aaaa" (Sha256.hexdigest [])]) ∧
    fsLookup (download_tile netFixEmpty [] tileFixBadMulti).2.1
      (tile_path tileFixBadMulti) = none := by
  have h := claim_C1_amended netFixEmpty [] tileFixBadMulti "1220aaaa" []
    (by decide) (by rfl) (by rfl)
  obtain ⟨hm, _, _⟩ := h
  obtain ⟨hrun, hdest, _⟩ := hm (by decide)
  exact ⟨hrun, hdest⟩

/-! ## C8 — batch fetching -/

/-- C8: `ensure_tiles` fetches the descriptors in the given order and, on
success, returns their local paths in the same order (the i-th path is the
i-th descriptor's `tile_path`); the first failing descriptor aborts the
batch — the batch result is exactly that descriptor's error, state and
events, so no later descriptor is fetched and no partial path list is
returned; and any batch error is an error some descriptor's fetch
produced. -/
theorem claim_C8_batch_order_failfast (net : Network) :
    (∀ ts fs ps fs2 ev, ensure_tiles net fs ts = (.ok ps, fs2, ev) →
      ps = ts.map tile_path) ∧
    (∀ fs t ts e, (download_tile net fs t).1 = .error e →
      ensure_tiles net fs (t :: ts) =
        (.error e, (download_tile net fs t).2.1, (download_tile net fs t).2.2)) ∧
    (∀ ts fs e fs2 ev, ensure_tiles net fs ts = (.error e, fs2, ev) →
      ∃ t ∈ ts, ∃ fsx, (download_tile net fsx t).1 = .error e) := by
  refine ⟨?_, ?_, ?_⟩
  · intro ts
    induction ts with
    | nil =>
        intro fs ps fs2 ev h
        simp only [ensure_tiles, Prod.mk.injEq, Except.ok.injEq] at h
        rw [← h.1]
        rfl
    | cons t ts ih =>
        intro fs ps fs2 ev h
        rcases hd : download_tile net fs t with ⟨r1, fs1, ev1⟩
        cases r1 with
        | error e =>
            simp only [ensure_tiles, hd] at h
            simp at h
        | ok p =>
            rcases he : ensure_tiles net fs1 ts with ⟨r2, fs2', ev2⟩
            cases r2 with
            | error e =>
                simp only [ensure_tiles, hd, he] at h
                simp at h
            | ok ps2 =>
                simp only [ensure_tiles, hd, he, Prod.mk.injEq, Except.ok.injEq] at h
                obtain ⟨hp, _, _⟩ := h
                have h1 := (download_tile_ok net fs t p fs1 ev1 hd).1
                rw [← hp, h1, List.map_cons, ih fs1 ps2 fs2' ev2 he]
  · intro fs t ts e hde
    rcases hd : download_tile net fs t with ⟨r1, fs1, ev1⟩
    rw [hd] at hde
    cases r1 with
    | ok p => simp at hde
    | error e' =>
        simp only [Except.error.injEq] at hde
        subst hde
        simp only [ensure_tiles, hd]
  · intro ts
    induction ts with
    | nil =>
        intro fs e fs2 ev h
        simp only [ensure_tiles] at h
        simp at h
    | cons t ts ih =>
        intro fs e fs2 ev h
        rcases hd : download_tile net fs t with ⟨r1, fs1, ev1⟩
        cases r1 with
        | error e' =>
            simp only [ensure_tiles, hd, Prod.mk.injEq, Except.error.injEq] at h
            refine ⟨t, List.mem_cons_self t ts, fs, ?_⟩
            rw [hd, h.1]
        | ok p =>
            rcases he : ensure_tiles net fs1 ts with ⟨r2, fs2', ev2⟩
            cases r2 with
            | ok ps2 =>
                simp only [ensure_tiles, hd, he] at h
                simp at h
            | error e2 =>
                simp only [ensure_tiles, hd, he, Prod.mk.injEq, Except.error.injEq] at h
                obtain ⟨t', ht', fsx, h'⟩ := ih fs1 e2 fs2' ev2 he
                rw [h.1] at h'
                exact ⟨t', List.mem_cons_of_mem t ht', fsx, h'⟩

set_option maxRecDepth 10000 in
/-- Witness for C8: a singleton batch on an empty cache succeeds in order,
and a two-element batch whose first download fails aborts with exactly that
download's error, state and events. -/
theorem claim_C8_witness :
    [tile_path tileFix] = [tileFix].map tile_path ∧
    ensure_tiles netFail [] [tileFix, tileFix] =
      (.error (.http "connection refused"), (download_tile netFail [] tileFix).2.1,
       (download_tile netFail [] tileFix).2.2) := by
  constructor
  · exact (claim_C8_batch_order_failfast netFix).1 [tileFix] []
      [tile_path tileFix]
      [(["raw", "coll", "tile_a", "metadata.json"], .tileMeta tileFix),
       (["raw", "coll", "tile_a", "tile_a.tif"], .bytes [65])]
      [.download "https://example.com/d/tile_a.tif", .metadataWrite ["raw", "coll", "tile_a"]]
      (by rfl)
  · exact (claim_C8_batch_order_failfast netFail).2.1 [] tileFix [tileFix]
      (.http "connection refused") (by rfl)

/-! ## C2 — fingerprints -/

/-- C2: the AOI fingerprint is the first 16 hex characters of the SHA-256
digest of the compact key-sorted JSON serialisation of the geometry with its
coordinates rounded to 2 decimal places, and the parameters fingerprint is
the first 12 hex characters of the analogous digest over the four
output-affecting fields; hence AOIs whose geometries agree after rounding
share a fingerprint, and parameter sets agreeing on those four fields share
a fingerprint. Both are pure functions of their inputs (determinism is
inherent: no machine state or time enters the definitions). -/
theorem claim_C2_fingerprints (a1 a2 : AOI) (p1 p2 : ContourParams)
    (hg : round_geometry_coords 2 a1.geometry = round_geometry_coords 2 a2.geometry)
    (hint : p1.interval = p2.interval)
    (htol : p1.simplify_tolerance = p2.simplify_tolerance)
    (hres : p1.resolution = p2.resolution)
    (hattr : p1.attribute_name = p2.attribute_name) :
    a1.canonical_hash =
      strTake (Sha256.hexdigest (utf8Bytes (dumps (round_geometry_coords 2 a1.geometry)))) 16 ∧
    params_hash p1 =
      strTake (Sha256.hexdigest (utf8Bytes (dumps (.obj
        [("interval", .num p1.interval),
         ("simplify_tolerance", .num p1.simplify_tolerance),
         ("resolution", .num p1.resolution.value),
         ("attribute_name", .str p1.attribute_name)])))) 12 ∧
    a1.canonical_hash = a2.canonical_hash ∧
    params_hash p1 = params_hash p2 := by
  refine ⟨rfl, rfl, ?_, ?_⟩
  · rw [AOI.canonical_hash, AOI.canonical_hash, hg]
  · rw [params_hash, params_hash, hint, htol, hres, hattr]

set_option maxRecDepth 10000 in
/-- Witness for C2: two square AOIs whose coordinates differ by millimetre
jitter round to the same centimetre grid and therefore share a fingerprint,
and two independently constructed parameter sets with equal fields share a
fingerprint. -/
theorem claim_C2_witness :
    AOI.canonical_hash
        { geometry := .obj [("type", .str "Polygon"),
            ("coordinates", .arr [.arr
              [.arr [.num (mkRat 2600000004 1000), .num 1200000],
               .arr [.num 2601000, .num 1200000],
               .arr [.num 2601000, .num 1201000],
               .arr [.num (mkRat 2600000004 1000), .num 1200000]]])],
          bbox := ⟨2600000, 1200000, 2601000, 1201000, .LV95⟩ } =
      AOI.canonical_hash
        { geometry := .obj [("type", .str "Polygon"),
            ("coordinates", .arr [.arr
              [.arr [.num (mkRat 2600000001 1000), .num 1200000],
               .arr [.num 2601000, .num 1200000],
               .arr [.num 2601000, .num 1201000],
               .arr [.num (mkRat 2600000001 1000), .num 1200000]]])],
          bbox := ⟨2599000, 1199000, 2602000, 1202000, .LV95⟩ } ∧
    params_hash { interval := 5, simplify_tolerance := mkRat 1 2 } =
      params_hash { interval := 5, attribute_name := "elevation",
                    simplify_tolerance := mkRat 1 2, resolution := .STANDARD } := by
  constructor
  · exact (claim_C2_fingerprints _ _ {} {} (by rfl) rfl rfl rfl rfl).2.2.1
  · exact (claim_C2_fingerprints ⟨.null, ⟨0, 0, 1, 1, .LV95⟩, .LV95⟩ _ _ _
      rfl rfl rfl rfl rfl).2.2.2

/-! ## Rounding structure of post-processed coordinates -/

theorem roundFlat_map_num (p : Nat) (l : List ℚ) :
    Contours.roundFlat p (l.map Json.num) = l.map (fun q => Json.num (pyRound p q)) := by
  induction l with
  | nil => rfl
  | cons q l ih => simp [Contours.roundFlat, ih]

theorem numLeaves_map_pyRound (p : Nat) (l : List ℚ) :
    numLeaves (.arr (l.map (fun q => Json.num (pyRound p q)))) = l.map (pyRound p) := by
  rw [numLeaves]
  induction l with
  | nil => rfl
  | cons q l ih => simp only [List.map_cons, numLeavesList, numLeaves, ih, List.cons_append,
      List.nil_append]

theorem numLeavesList_roundNest (p : Nat) (l : List Json) (q : ℚ)
    (hq : q ∈ numLeavesList (Contours.roundNest p l)) :
    ∃ x ∈ l, q ∈ numLeaves (Contours.round_coords p x) := by
  induction l with
  | nil => simp [Contours.roundNest, numLeavesList] at hq
  | cons x xs ih =>
      rw [Contours.roundNest, numLeavesList] at hq
      rcases List.mem_append.mp hq with h | h
      · exact ⟨x, List.mem_cons_self x xs, h⟩
      · obtain ⟨y, hy, hm⟩ := ih h
        exact ⟨y, List.mem_cons_of_mem x hy, hm⟩

/-- On a well-formed coordinate structure, `_round_coords` leaves only
numbers that are whole multiples of a hundredth. -/
theorem round_coords_cent (c : Json) (h : WFCoords c) :
    ∀ q ∈ numLeaves (Contours.round_coords 2 c), (q * 100).den = 1 := by
  induction h with
  | point l hne =>
      intro q hq
      cases l with
      | nil => exact absurd rfl hne
      | cons a l0 =>
          rw [Contours.round_coords] at hq
          rw [if_pos (by rw [List.map_cons]; rfl)] at hq
          rw [roundFlat_map_num, numLeaves_map_pyRound] at hq
          obtain ⟨q0, _, rfl⟩ := List.mem_map.mp hq
          exact pyRound_mul_hundred_den q0
  | nest l hl ih =>
      intro q hq
      have hhead : Contours.headIsNum l = false := by
        cases l with
        | nil => rfl
        | cons x xs =>
            have hx := hl x (List.mem_cons_self x xs)
            cases hx with
            | point l' hne' => rfl
            | nest l' h' => rfl
      rw [Contours.round_coords, if_neg (by rw [hhead]; exact Bool.false_ne_true)] at hq
      rw [numLeaves] at hq
      obtain ⟨x, hx, hm⟩ := numLeavesList_roundNest 2 l q hq
      exact ih x hx q hm

/-! ## Sort-key order lemmas -/

theorem keyLe_total (a b : ℚ × ℚ × ℚ) :
    Contours.keyLe a b = true ∨ Contours.keyLe b a = true := by
  rw [Contours.keyLe, Contours.keyLe]
  simp only [Bool.or_eq_true, Bool.and_eq_true, decide_eq_true_iff]
  rcases lt_trichotomy a.1 b.1 with h | h | h
  · exact Or.inl (Or.inl h)
  · rcases lt_trichotomy a.2.1 b.2.1 with h2 | h2 | h2
    · exact Or.inl (Or.inr ⟨h, Or.inl h2⟩)
    · rcases le_total a.2.2 b.2.2 with h3 | h3
      · exact Or.inl (Or.inr ⟨h, Or.inr ⟨h2, h3⟩⟩)
      · exact Or.inr (Or.inr ⟨h.symm, Or.inr ⟨h2.symm, h3⟩⟩)
    · exact Or.inr (Or.inr ⟨h.symm, Or.inl h2⟩)
  · exact Or.inr (Or.inl h)

theorem keyLe_trans (a b c : ℚ × ℚ × ℚ) (h1 : Contours.keyLe a b = true)
    (h2 : Contours.keyLe b c = true) : Contours.keyLe a c = true := by
  simp only [Contours.keyLe, Bool.or_eq_true, Bool.and_eq_true, decide_eq_true_iff] at h1 h2 ⊢
  rcases h1 with h1 | ⟨e1, h1⟩
  · rcases h2 with h2 | ⟨e2, h2⟩
    · exact Or.inl (h1.trans h2)
    · exact Or.inl (e2 ▸ h1)
  · rcases h2 with h2 | ⟨e2, h2⟩
    · refine Or.inl ?_
      rw [e1]
      exact h2
    · refine Or.inr ⟨e1.trans e2, ?_⟩
      rcases h1 with h1 | ⟨f1, h1⟩
      · rcases h2 with h2 | ⟨f2, h2⟩
        · exact Or.inl (h1.trans h2)
        · exact Or.inl (f2 ▸ h1)
      · rcases h2 with h2 | ⟨f2, h2⟩
        · refine Or.inl ?_
          rw [f1]
          exact h2
        · exact Or.inr ⟨f1.trans f2, h1.trans h2⟩

/-- Membership in the post-processed feature list: every output feature is
the emitted transform of some raw feature. -/
theorem postprocess_mem (S : Contours.Shapely) (params : ContourParams)
    (fs : List Contours.Feature) (f' : Contours.Feature)
    (h : f' ∈ Contours.postprocess_features S params fs) :
    ∃ f ∈ fs, f' = Contours.emitFeature params (Contours.simplifiedGeom S params f) f := by
  induction fs with
  | nil => simp [Contours.postprocess_features] at h
  | cons f fs ih =>
      rw [Contours.postprocess_features] at h
      split at h
      · obtain ⟨g, hg, he⟩ := ih h
        exact ⟨g, List.mem_cons_of_mem f hg, he⟩
      · dsimp only at h
        split at h
        · obtain ⟨g, hg, he⟩ := ih h
          exact ⟨g, List.mem_cons_of_mem f hg, he⟩
        · rcases List.mem_cons.mp h with h | h
          · exact ⟨f, List.mem_cons_self f fs, h⟩
          · obtain ⟨g, hg, he⟩ := ih h
            exact ⟨g, List.mem_cons_of_mem f hg, he⟩

/-! ## C7 — canonical output ordering and rounding -/

/-- C7: the canonical GeoJSON feature list of a run is a permutation of the
post-processed features, sorted ascending by the key
(elevation, bounds min-x, bounds min-y); and — provided the raw geometries
are well-formed coordinate structures and the simplification collaborator
preserves that shape — every coordinate of every output feature is a whole
multiple of a hundredth (rounded to 2 decimal places). -/
theorem claim_C7_sorted_rounded (S : Contours.Shapely) (params : ContourParams)
    (raw : List Contours.Feature)
    (hwf : ∀ f ∈ raw, WFCoords f.coords)
    (hsimp : ∀ tol g, WFCoords g.2 → WFCoords (S.simplify tol g).2) :
    (Contours.build_canonical_geojson S params
        (Contours.postprocess_features S params raw)).Perm
      (Contours.postprocess_features S params raw) ∧
    List.Pairwise
      (fun a b =>
        Contours.keyLe (Contours.sort_key S params a) (Contours.sort_key S params b) = true)
      (Contours.build_canonical_geojson S params (Contours.postprocess_features S params raw)) ∧
    (∀ f ∈ Contours.build_canonical_geojson S params
        (Contours.postprocess_features S params raw),
      ∀ q ∈ numLeaves f.coords, (q * 100).den = 1) := by
  haveI instTot : IsTotal Contours.Feature
      (fun a b =>
        Contours.keyLe (Contours.sort_key S params a) (Contours.sort_key S params b) = true) :=
    ⟨fun a b => keyLe_total _ _⟩
  haveI instTrans : IsTrans Contours.Feature
      (fun a b =>
        Contours.keyLe (Contours.sort_key S params a) (Contours.sort_key S params b) = true) :=
    ⟨fun a b c => keyLe_trans _ _ _⟩
  refine ⟨List.perm_insertionSort _ _, List.sorted_insertionSort _ _, ?_⟩
  intro f hf q hq
  have hf2 : f ∈ Contours.postprocess_features S params raw :=
    (List.perm_insertionSort _ _).mem_iff.mp hf
  obtain ⟨f0, hf0, rfl⟩ := postprocess_mem S params raw f hf2
  have hwfg : WFCoords (Contours.simplifiedGeom S params f0).2 := by
    rw [Contours.simplifiedGeom]
    split
    · exact hsimp _ _ (hwf f0 hf0)
    · exact hwf f0 hf0
  exact round_coords_cent _ hwfg q hq

set_option maxRecDepth 10000 in
/-- Witness for C7: one millimetre-jittered LineString feature through the
line-string shapely model comes out sorted (trivially) with all
coordinates on the centimetre grid. -/
theorem claim_C7_witness :
    List.Pairwise
      (fun a b =>
        Contours.keyLe (Contours.sort_key Contours.lineShapely {} a)
          (Contours.sort_key Contours.lineShapely {} b) = true)
      (Contours.build_canonical_geojson Contours.lineShapely {}
        (Contours.postprocess_features Contours.lineShapely {}
          [{ gtype := "LineString",
             coords := .arr [.arr [.num (mkRat 1001 1000), .num 0], .arr [.num 2, .num 3]],
             props := [("elevation", 100)] }])) :=
  (claim_C7_sorted_rounded Contours.lineShapely {} _
    (by
      intro f hf
      rcases List.mem_singleton.mp hf with rfl
      refine WFCoords.nest _ ?_
      intro x hx
      rcases List.mem_cons.mp hx with rfl | hx
      · exact WFCoords.point [mkRat 1001 1000, 0] (by simp)
      · rcases List.mem_singleton.mp hx with rfl
        exact WFCoords.point [2, 3] (by simp))
    (fun tol g h => h)).2.1

/-! ## C10 — degenerate-feature filtering -/

theorem bool_keep_of_or (a b c : Bool) (h : (a || b) = true) : (!a && !b && c) = false := by
  cases a <;> cases b <;> simp_all

set_option maxRecDepth 10000 in
/-- Counterexample to C10 as stated: a raw LineString of positive length
(millimetre scale) survives every check, but the emitted feature's
geometry — after centimetre rounding — has all points equal, i.e. zero
length, yet it is part of the final output. -/
theorem claim_C10_counterexample :
    Contours.lineShapely.length ("LineString",
        Json.arr [.arr [.num 0, .num 0], .arr [.num (mkRat 1 1000), .num 0]]) ≠ 0 ∧
    Contours.postprocess_features Contours.lineShapely {}
        [{ gtype := "LineString",
           coords := .arr [.arr [.num 0, .num 0], .arr [.num (mkRat 1 1000), .num 0]],
           props := [("elevation", 100)] }] =
      [{ gtype := "LineString",
         coords := .arr [.arr [.num 0, .num 0], .arr [.num 0, .num 0]],
         props := [("elevation", 100)] }] ∧
    Contours.lineShapely.length ("LineString",
        Json.arr [.arr [.num 0, .num 0], .arr [.num 0, .num 0]]) = 0 ∧
    Contours.lineShapely.is_empty ("LineString",
        Json.arr [.arr [.num 0, .num 0], .arr [.num 0, .num 0]]) = false := by
  exact ⟨by decide, by rfl, by decide, by rfl⟩

/-- C10 (amended): the post-processing stage emits exactly the transforms of
the raw features that pass its checks — a raw feature is dropped iff its
geometry is empty, has zero length, or (when simplification runs) becomes
empty after simplification — so the reported contour count excludes the
dropped features, and every emitted feature stems from a raw geometry that
was non-empty with non-zero length; the emitted geometry itself, however,
may round down to zero length (see the counterexample). -/
theorem claim_C10_amended (S : Contours.Shapely) (params : ContourParams)
    (fs : List Contours.Feature) :
    Contours.postprocess_features S params fs =
      (fs.filter (Contours.keepsFeature S params)).map
        (fun f => Contours.emitFeature params (Contours.simplifiedGeom S params f) f) ∧
    (Contours.postprocess_features S params fs).length =
      fs.countP (Contours.keepsFeature S params) ∧
    (∀ f, Contours.keepsFeature S params f = true →
      S.is_empty (f.gtype, f.coords) = false ∧
      S.length (f.gtype, f.coords) ≠ 0 ∧
      (qlt 0 params.simplify_tolerance = true →
        S.is_empty (Contours.simplifiedGeom S params f) = false)) := by
  have hmain : Contours.postprocess_features S params fs =
      (fs.filter (Contours.keepsFeature S params)).map
        (fun f => Contours.emitFeature params (Contours.simplifiedGeom S params f) f) := by
    induction fs with
    | nil => rfl
    | cons f fs ih =>
        rw [Contours.postprocess_features, List.filter_cons]
        by_cases h1 : (S.is_empty (f.gtype, f.coords) ||
            decide (S.length (f.gtype, f.coords) = 0)) = true
        · rw [if_pos h1]
          have hk : Contours.keepsFeature S params f = false := by
            rw [Contours.keepsFeature]
            exact bool_keep_of_or _ _ _ h1
          rw [hk]
          simp only [Bool.false_eq_true, if_false]
          exact ih
        · rw [if_neg h1]
          rw [Bool.not_eq_true] at h1
          obtain ⟨ha, hb⟩ := Bool.or_eq_false_iff.mp h1
          dsimp only
          by_cases h2 : (qlt 0 params.simplify_tolerance &&
              S.is_empty (Contours.simplifiedGeom S params f)) = true
          · rw [if_pos h2]
            have hk : Contours.keepsFeature S params f = false := by
              simp [Contours.keepsFeature, h2]
            rw [hk]
            simp only [Bool.false_eq_true, if_false]
            exact ih
          · rw [if_neg h2]
            rw [Bool.not_eq_true] at h2
            have hk : Contours.keepsFeature S params f = true := by
              simp [Contours.keepsFeature, ha, hb, h2]
            rw [hk]
            simp only [if_true, List.map_cons]
            rw [ih]
  refine ⟨hmain, ?_, ?_⟩
  · rw [hmain, List.length_map, ← List.countP_eq_length_filter]
  · intro f hk
    rw [Contours.keepsFeature] at hk
    simp only [Bool.and_eq_true, Bool.not_eq_true'] at hk
    obtain ⟨⟨ha, hb⟩, hc⟩ := hk
    refine ⟨ha, of_decide_eq_false hb, ?_⟩
    intro hq
    cases hcc : S.is_empty (Contours.simplifiedGeom S params f) with
    | false => rfl
    | true =>
        rw [hq, hcc] at hc
        exact absurd hc (by simp)

set_option maxRecDepth 10000 in
/-- Witness for C10 (amended): the millimetre LineString passes the checks
(its raw geometry is non-empty with non-zero length) and the output equals
the filter-and-emit form. -/
theorem claim_C10_witness :
    Contours.postprocess_features Contours.lineShapely {}
        [{ gtype := "LineString",
           coords := .arr [.arr [.num 0, .num 0], .arr [.num (mkRat 1 1000), .num 0]],
           props := [("elevation", 100)] }] =
      (([{ gtype := "LineString",
           coords := .arr [.arr [.num 0, .num 0], .arr [.num (mkRat 1 1000), .num 0]],
           props := [("elevation", 100)] }] : List Contours.Feature).filter
        (Contours.keepsFeature Contours.lineShapely {})).map
        (fun f => Contours.emitFeature {} (Contours.simplifiedGeom Contours.lineShapely {} f) f) ∧
    Contours.lineShapely.is_empty ("LineString",
        Json.arr [.arr [.num 0, .num 0], .arr [.num (mkRat 1 1000), .num 0]]) = false := by
  have h := claim_C10_amended Contours.lineShapely {}
    [{ gtype := "LineString",
       coords := .arr [.arr [.num 0, .num 0], .arr [.num (mkRat 1 1000), .num 0]],
       props := [("elevation", 100)] }]
  exact ⟨h.1, (h.2.2
    { gtype := "LineString",
      coords := .arr [.arr [.num 0, .num 0], .arr [.num (mkRat 1 1000), .num 0]],
      props := [("elevation", 100)] } (by decide)).1⟩

/-! ## C5 — orchestrator: manifest discipline and unmasked errors -/

theorem countP_manifest_cacheMap (l : List CacheEvent) :
    (l.map PipeEvent.cache).countP isManifestEv = 0 := by
  induction l with
  | nil => rfl
  | cons x xs ih => simp [List.countP_cons, isManifestEv, ih]

theorem filterMap_stepName_cacheMap (l : List CacheEvent) :
    (l.map PipeEvent.cache).filterMap stepNameOf = [] := by
  induction l with
  | nil => rfl
  | cons x xs ih => simp [List.filterMap_cons, stepNameOf, ih]

theorem getLast?_append_singleton {α : Type} (l : List α) (a : α) :
    (l ++ [a]).getLast? = some a := by
  induction l with
  | nil => rfl
  | cons x xs ih =>
      cases xs with
      | nil => rfl
      | cons y ys =>
          rw [List.cons_append, List.cons_append, List.getLast?_cons_cons]
          rw [List.cons_append] at ih
          exact ih

/-- C5: a successful pipeline run ends with the manifest write — exactly one
manifest-write event, and it is the last event of the run — and each
collaborator step is invoked at most once (the step-name trace has no
duplicates); a failed run writes no manifest at all, again with no repeated
step, and the error the caller sees is exactly the error some step
produced. -/
theorem claim_C5_manifest_discipline (ε : Type) (env : PipelineEnv ε)
    (interval simplify_tolerance : ℚ) (resolution : Resolution)
    (output_dir? : Option CachePath) (save : Bool) (fs : FS) :
    (∀ r fs2 ev,
      run_contour_pipeline env interval resolution simplify_tolerance output_dir? save fs =
        (.ok r, fs2, ev) →
      (∃ dir m, ev.getLast? = some (.writeManifest dir m)) ∧
        ev.countP isManifestEv = 1 ∧ (ev.filterMap stepNameOf).Nodup) ∧
    (∀ e fs2 ev,
      run_contour_pipeline env interval resolution simplify_tolerance output_dir? save fs =
        (.error e, fs2, ev) →
      ev.countP isManifestEv = 0 ∧ (ev.filterMap stepNameOf).Nodup ∧
        OriginatedBy env interval simplify_tolerance resolution e) := by
  constructor
  · intro r fs2 ev h
    cases hn : env.normalise with
    | error e0 => simp only [run_contour_pipeline, hn] at h; simp at h
    | ok aoi =>
    cases hp : mkContourParams interval simplify_tolerance resolution with
    | error u => simp only [run_contour_pipeline, hn, hp] at h; simp at h
    | ok params =>
    cases hd : env.discover aoi with
    | error e0 => simp only [run_contour_pipeline, hn, hp, hd] at h; simp at h
    | ok tiles =>
    rcases hE : ensure_tiles env.net fs tiles with ⟨rE, fs1, cev⟩
    cases rE with
    | error ce => simp only [run_contour_pipeline, hn, hp, hd, hE] at h; simp at h
    | ok tile_paths =>
    cases hv : env.build_vrt tile_paths with
    | error e0 => simp only [run_contour_pipeline, hn, hp, hd, hE, hv] at h; simp at h
    | ok u1 =>
    cases hcl : env.clip_dem
        (output_dir?.getD (derived_dir_for aoi.canonical_hash params)) with
    | error e0 => simp only [run_contour_pipeline, hn, hp, hd, hE, hv, hcl] at h; simp at h
    | ok u2 =>
    cases hst : env.get_dem_stats with
    | error e0 =>
        simp only [run_contour_pipeline, hn, hp, hd, hE, hv, hcl, hst] at h
        simp at h
    | ok stats =>
    cases hg : env.generate_contours params with
    | error e0 =>
        simp only [run_contour_pipeline, hn, hp, hd, hE, hv, hcl, hst, hg] at h
        simp at h
    | ok u3 =>
    cases hct : env.count_contours with
    | error e0 =>
        simp only [run_contour_pipeline, hn, hp, hd, hE, hv, hcl, hst, hg, hct] at h
        simp at h
    | ok n =>
    cases save with
    | true =>
        simp only [run_contour_pipeline, hn, hp, hd, hE, hv, hcl, hst, hg, hct, if_true,
          Prod.mk.injEq, Except.ok.injEq] at h
        obtain ⟨h1, h2, h3⟩ := h
        subst h3
        refine ⟨⟨_, _, getLast?_append_singleton _ _⟩, ?_, ?_⟩
        · simp [List.countP_append, List.countP_cons, isManifestEv, countP_manifest_cacheMap]
        · simp only [List.filterMap_append, filterMap_stepName_cacheMap, List.filterMap_cons,
            stepNameOf, List.filterMap_nil, List.append_nil, List.nil_append]
          decide
    | false =>
        simp only [run_contour_pipeline, hn, hp, hd, hE, hv, hcl, hst, hg, hct,
          Bool.false_eq_true, if_false, Prod.mk.injEq, Except.ok.injEq] at h
        obtain ⟨h1, h2, h3⟩ := h
        subst h3
        refine ⟨⟨_, _, getLast?_append_singleton _ _⟩, ?_, ?_⟩
        · simp [List.countP_append, List.countP_cons, isManifestEv, countP_manifest_cacheMap]
        · simp only [List.filterMap_append, filterMap_stepName_cacheMap, List.filterMap_cons,
            stepNameOf, List.filterMap_nil, List.append_nil, List.nil_append]
          decide
  · intro e fs2 ev h
    cases hn : env.normalise with
    | error e0 =>
        simp only [run_contour_pipeline, hn, Prod.mk.injEq, Except.error.injEq] at h
        obtain ⟨h1, h2, h3⟩ := h
        subst h1; subst h3
        exact ⟨rfl, by decide, Or.inl hn⟩
    | ok aoi =>
    cases hp : mkContourParams interval simplify_tolerance resolution with
    | error u =>
        simp only [run_contour_pipeline, hn, hp, Prod.mk.injEq, Except.error.injEq] at h
        obtain ⟨h1, h2, h3⟩ := h
        subst h1; subst h3
        refine ⟨rfl, by decide, ?_⟩
        cases u
        exact hp
    | ok params =>
    cases hd : env.discover aoi with
    | error e0 =>
        simp only [run_contour_pipeline, hn, hp, hd, Prod.mk.injEq, Except.error.injEq] at h
        obtain ⟨h1, h2, h3⟩ := h
        subst h1; subst h3
        exact ⟨rfl, by decide, Or.inr (Or.inl ⟨aoi, hd⟩)⟩
    | ok tiles =>
    rcases hE : ensure_tiles env.net fs tiles with ⟨rE, fs1, cev⟩
    cases rE with
    | error ce =>
        simp only [run_contour_pipeline, hn, hp, hd, hE, Prod.mk.injEq, Except.error.injEq] at h
        obtain ⟨h1, h2, h3⟩ := h
        subst h1; subst h3
        refine ⟨?_, ?_, ⟨fs, tiles, by rw [hE]⟩⟩
        · simp [List.countP_append, List.countP_cons, isManifestEv, countP_manifest_cacheMap]
        · simp only [List.filterMap_append, filterMap_stepName_cacheMap, List.filterMap_cons,
            stepNameOf, List.filterMap_nil, List.append_nil, List.nil_append]
          decide
    | ok tile_paths =>
    cases hv : env.build_vrt tile_paths with
    | error e0 =>
        simp only [run_contour_pipeline, hn, hp, hd, hE, hv, Prod.mk.injEq,
          Except.error.injEq] at h
        obtain ⟨h1, h2, h3⟩ := h
        subst h1; subst h3
        refine ⟨?_, ?_, Or.inr (Or.inr (Or.inl ⟨tile_paths, hv⟩))⟩
        · simp [List.countP_append, List.countP_cons, isManifestEv, countP_manifest_cacheMap]
        · simp only [List.filterMap_append, filterMap_stepName_cacheMap, List.filterMap_cons,
            stepNameOf, List.filterMap_nil, List.append_nil, List.nil_append]
          decide
    | ok u1 =>
    cases hcl : env.clip_dem
        (output_dir?.getD (derived_dir_for aoi.canonical_hash params)) with
    | error e0 =>
        simp only [run_contour_pipeline, hn, hp, hd, hE, hv, hcl, Prod.mk.injEq,
          Except.error.injEq] at h
        obtain ⟨h1, h2, h3⟩ := h
        subst h1; subst h3
        refine ⟨?_, ?_, Or.inr (Or.inr (Or.inr (Or.inl ⟨_, hcl⟩)))⟩
        · simp [List.countP_append, List.countP_cons, isManifestEv, countP_manifest_cacheMap]
        · simp only [List.filterMap_append, filterMap_stepName_cacheMap, List.filterMap_cons,
            stepNameOf, List.filterMap_nil, List.append_nil, List.nil_append]
          decide
    | ok u2 =>
    cases hst : env.get_dem_stats with
    | error e0 =>
        simp only [run_contour_pipeline, hn, hp, hd, hE, hv, hcl, hst, Prod.mk.injEq,
          Except.error.injEq] at h
        obtain ⟨h1, h2, h3⟩ := h
        subst h1; subst h3
        refine ⟨?_, ?_, Or.inr (Or.inr (Or.inr (Or.inr (Or.inl hst))))⟩
        · simp [List.countP_append, List.countP_cons, isManifestEv, countP_manifest_cacheMap]
        · simp only [List.filterMap_append, filterMap_stepName_cacheMap, List.filterMap_cons,
            stepNameOf, List.filterMap_nil, List.append_nil, List.nil_append]
          decide
    | ok stats =>
    cases hg : env.generate_contours params with
    | error e0 =>
        simp only [run_contour_pipeline, hn, hp, hd, hE, hv, hcl, hst, hg, Prod.mk.injEq,
          Except.error.injEq] at h
        obtain ⟨h1, h2, h3⟩ := h
        subst h1; subst h3
        refine ⟨?_, ?_, Or.inr (Or.inr (Or.inr (Or.inr (Or.inr (Or.inl ⟨params, hg⟩)))))⟩
        · simp [List.countP_append, List.countP_cons, isManifestEv, countP_manifest_cacheMap]
        · simp only [List.filterMap_append, filterMap_stepName_cacheMap, List.filterMap_cons,
            stepNameOf, List.filterMap_nil, List.append_nil, List.nil_append]
          decide
    | ok u3 =>
    cases hct : env.count_contours with
    | error e0 =>
        simp only [run_contour_pipeline, hn, hp, hd, hE, hv, hcl, hst, hg, hct, Prod.mk.injEq,
          Except.error.injEq] at h
        obtain ⟨h1, h2, h3⟩ := h
        subst h1; subst h3
        refine ⟨?_, ?_, Or.inr (Or.inr (Or.inr (Or.inr (Or.inr (Or.inr hct)))))⟩
        · simp [List.countP_append, List.countP_cons, isManifestEv, countP_manifest_cacheMap]
        · simp only [List.filterMap_append, filterMap_stepName_cacheMap, List.filterMap_cons,
            stepNameOf, List.filterMap_nil, List.append_nil, List.nil_append]
          decide
    | ok n =>
    cases save with
    | true =>
        simp only [run_contour_pipeline, hn, hp, hd, hE, hv, hcl, hst, hg, hct, if_true] at h
        simp at h
    | false =>
        simp only [run_contour_pipeline, hn, hp, hd, hE, hv, hcl, hst, hg, hct,
          Bool.false_eq_true, if_false] at h
        simp at h

set_option maxRecDepth 10000 in
/-- Witness for C5: a fully successful concrete run ends with its manifest
write, and a concrete run whose normalisation fails produces no manifest
event and surfaces exactly the normaliser's error. -/
theorem claim_C5_witness :
    (∃ dir m,
      ([.step "normalise_aoi", .step "discover_tiles",
        .cache (.download "https://example.com/d/tile_a.tif"),
        .cache (.metadataWrite ["raw", "coll", "tile_a"]),
        .step "build_vrt", .step "clip_dem", .step "get_dem_stats",
        .step "generate_contours", .step "count_contours",
        .writeManifest ["out"]
          { aoi_hash := "74234e98afe7498f", parameters := {},
            tiles_used := ["tile_a"], dem_stats := [("min", 400), ("max", 500)],
            contour_count := 3, attribution := ATTRIBUTION }] :
          List PipeEvent).getLast? = some (.writeManifest dir m)) ∧
    (([PipeEvent.step "normalise_aoi"].countP isManifestEv = 0) ∧
      ([PipeEvent.step "normalise_aoi"].filterMap stepNameOf).Nodup ∧
      OriginatedBy envFixBad 1 0 .STANDARD (.step "invalid geometry")) := by
  constructor
  · exact ((claim_C5_manifest_discipline String envFixOk 1 0 .STANDARD (some ["out"]) true []).1
      { contours_path := ["out", "contours.geojson"],
        clipped_dem_path := some ["out", "dem_clip.tif"],
        contour_count := 3, elevation_range := (400, 500),
        aoi_hash := "74234e98afe7498f", params := {},
        tile_ids := ["tile_a"], attribution := ATTRIBUTION }
      [(["raw", "coll", "tile_a", "metadata.json"], .tileMeta tileFix),
       (["raw", "coll", "tile_a", "tile_a.tif"], .bytes [65])]
      [.step "normalise_aoi", .step "discover_tiles",
       .cache (.download "https://example.com/d/tile_a.tif"),
       .cache (.metadataWrite ["raw", "coll", "tile_a"]),
       .step "build_vrt", .step "clip_dem", .step "get_dem_stats",
       .step "generate_contours", .step "count_contours",
       .writeManifest ["out"]
         { aoi_hash := "74234e98afe7498f", parameters := {},
           tiles_used := ["tile_a"], dem_stats := [("min", 400), ("max", 500)],
           contour_count := 3, attribution := ATTRIBUTION }]
      (by rfl)).1
  · exact (claim_C5_manifest_discipline String envFixBad 1 0 .STANDARD (some ["out"]) true []).2
      (.step "invalid geometry") [] [.step "normalise_aoi"] (by rfl)

end KeylinePlanner
